import Mathlib

/-! Registry.hpp: a shallow embedding

The header `include/Registry.hpp` wraps the Windows registry API.  Every method of
`Registry::RegistryKey` forwards to one or two calls of that API, so the embedding has two
layers:

* a small model of the API itself (`RegQueryValueEx`, `RegSetValueEx`, `RegDeleteValue`,
  `RegDeleteTree`, `RegQueryInfoKey`, `RegEnumKeyEx`, `RegCloseKey`) over a store that keeps,
  for every open handle, the named values and the named child keys of the key it denotes.  The
  store keeps the bytes and the type tag of a value exactly as they were written, compares names
  code unit by code unit, and gives the empty name and the path separator no special treatment.
  Every handle has a key node of its own (two handles on one key are not modelled), and a
  request fails only when its handle denotes no key or the named thing does not exist.  The
  answers to `RegOpenKeyEx` and `RegCreateKeyEx` are inputs of the model;
* the methods of the header, translated statement by statement on top of that model.

Machine integers are natural numbers or integers with the reductions modulo `2 ^ 32` and
`2 ^ 64` written out.  A wide string is the list of its 16-bit code units; raw data is a list of
bytes.  Pointers are 64 bits wide (an x64 build), which only fixes the numeric value of the
predefined handles.
-/

namespace Registry

/-! ## Win32 constants -/

def ERROR_SUCCESS : Nat := 0
def ERROR_FILE_NOT_FOUND : Nat := 2
def ERROR_ACCESS_DENIED : Nat := 5
def ERROR_INVALID_HANDLE : Nat := 6
def ERROR_INVALID_PARAMETER : Nat := 87
def ERROR_MORE_DATA : Nat := 234
def ERROR_NO_MORE_ITEMS : Nat := 259

def REG_NONE : Nat := 0
def REG_SZ : Nat := 1
def REG_EXPAND_SZ : Nat := 2
def REG_BINARY : Nat := 3
def REG_DWORD : Nat := 4
def REG_MULTI_SZ : Nat := 7
def REG_QWORD : Nat := 11

def KEY_READ : Nat := 0x20019
def KEY_ALL_ACCESS : Nat := 0xF003F

/-- The predefined handle `(HKEY)(ULONG_PTR)((LONG)c)` of `winreg.h` for a 32-bit constant `c`
with the top bit set: the `LONG` is negative and is sign-extended to the pointer width. -/
def predefinedHandle (c : Nat) : Nat := 0xFFFFFFFF00000000 + c

def HKEY_CLASSES_ROOT : Nat := predefinedHandle 0x80000000
def HKEY_CURRENT_USER : Nat := predefinedHandle 0x80000001
def HKEY_LOCAL_MACHINE : Nat := predefinedHandle 0x80000002
def HKEY_USERS : Nat := predefinedHandle 0x80000003
def HKEY_PERFORMANCE_DATA : Nat := predefinedHandle 0x80000004
def HKEY_CURRENT_CONFIG : Nat := predefinedHandle 0x80000005
def HKEY_DYN_DATA : Nat := predefinedHandle 0x80000006
def HKEY_CURRENT_USER_LOCAL_SETTINGS : Nat := predefinedHandle 0x80000007

/-! ## Bytes, integers and wide strings -/

/-- The `n` low bytes of `x`, least significant first (the object representation of an
unsigned integer of `n` bytes on a little-endian machine). -/
def toBytesLE : Nat → Nat → List Nat
  | 0, _ => []
  | n + 1, x => (x % 256) :: toBytesLE n (x / 256)

/-- The unsigned integer whose little-endian object representation is the given bytes. -/
def ofBytesLE : List Nat → Nat
  | [] => 0
  | b :: bs => b % 256 + 256 * ofBytesLE bs

/-- Two's complement conversion of an integer to the unsigned type of `w` bits. -/
def toUnsigned (w : Nat) (v : Int) : Nat := (v % (2 : Int) ^ w).toNat

/-- Conversion of an unsigned value of `w` bits to the signed type of the same width
(wrap-around, as MSVC does it). -/
def toSigned (w : Nat) (n : Nat) : Int :=
  if n % 2 ^ w < 2 ^ (w - 1) then ((n % 2 ^ w : Nat) : Int) else ((n % 2 ^ w : Nat) : Int) - (2 : Int) ^ w

/-- Conversion to `DWORD`. -/
def DWORD (n : Nat) : Nat := n % 2 ^ 32

/-- The bytes of a wide string in memory: two bytes per code unit, low byte first. -/
def wstringBytes : List Nat → List Nat
  | [] => []
  | c :: cs => (c % 256) :: (c / 256 % 256) :: wstringBytes cs

/-- The wide characters held by a byte buffer read as `WCHAR[]`; a trailing odd byte is not a
character. -/
def toWChars : List Nat → List Nat
  | lo :: hi :: rest => (lo % 256 + 256 * (hi % 256)) :: toWChars rest
  | _ => []

/-- The C string that starts at `s.c_str()`: the code units before the first terminator.  It is
what a `const wchar_t*` parameter sees of a `std::wstring`, and what `std::wstring(const
wchar_t*)` copies. -/
def c_str (s : List Nat) : List Nat := s.takeWhile (fun c => c != 0)

/-- The memory readable from `s.c_str()`: the characters of `s` and the terminator after them. -/
def c_strBytes (s : List Nat) : List Nat := wstringBytes s ++ [0, 0]

/-- A buffer after `data` was written at its start: the bytes behind the written part keep
their former contents (a write longer than the buffer is kept whole here; the callers cut it to
the capacity they allocated). -/
def writeBuf (buf data : List Nat) : List Nat := data ++ buf.drop data.length

/-- Freshly allocated, uninitialised storage of `n` bytes; `junk i` is the byte found at
offset `i`. -/
def uninit (junk : Nat → Nat) (n : Nat) : List Nat := (List.range n).map junk

/-! ## The registry store -/

/-- A stored value: its type tag and its raw data. -/
structure RegValue where
  dwType : Nat
  data : List Nat
deriving DecidableEq

/-- A key node: its named values and its named child keys, in enumeration order. -/
inductive Key where
  | mk (values : List (List Nat × RegValue)) (subkeys : List (List Nat × Key)) : Key

def Key.values : Key → List (List Nat × RegValue)
  | .mk v _ => v

def Key.subkeys : Key → List (List Nat × Key)
  | .mk _ s => s

/-- Lookup by name in a list of named entries. -/
def assocFind {β : Type} (name : List Nat) : List (List Nat × β) → Option β
  | [] => none
  | (n, b) :: rest => if n = name then some b else assocFind name rest

/-- Replace the entry called `name`, or append a new entry when there is none. -/
def assocSet {β : Type} (name : List Nat) (b : β) : List (List Nat × β) → List (List Nat × β)
  | [] => [(name, b)]
  | (n, c) :: rest => if n = name then (n, b) :: rest else (n, c) :: assocSet name b rest

/-- Remove what is called `name`. -/
def assocErase {β : Type} (name : List Nat) : List (List Nat × β) → List (List Nat × β)
  | [] => []
  | (n, c) :: rest => if n = name then assocErase name rest else (n, c) :: assocErase name rest

/-- A request that changes the registry, as the operating system received it. -/
inductive OsCall where
  | RegSetValueEx (hKey : Nat) (lpValueName : List Nat) (dwType : Nat) (cbData : Nat)
  | RegDeleteValue (hKey : Nat) (lpValueName : List Nat)
  | RegDeleteTree (hKey : Nat) (lpSubKey : List Nat)
  | RegCloseKey (hKey : Nat)
deriving DecidableEq

/-- What `RegOpenKeyEx` and `RegCreateKeyEx` hand back: the status and the handle stored through
`phkResult`. -/
structure OpenAnswer where
  lStatus : Nat
  hKey : Nat
deriving DecidableEq

/-- The operating system side: the key each open handle denotes (a null or stale handle denotes
none), the journal of the modifying requests received so far, and the answers the system gives
to requests to open or to create a key (by parent handle, path and access mask; how the system
arrives at them is outside this model). -/
structure Os where
  keys : Nat → Option Key
  calls : List OsCall
  openAnswer : Nat → List Nat → Nat → OpenAnswer
  createAnswer : Nat → List Nat → OpenAnswer

/-- What one `RegQueryValueEx` call leaves behind. -/
structure QueryResult where
  lStatus : Nat
  /-- Value left in `*lpType` (callers initialise it to 0). -/
  dwType : Nat
  /-- Bytes the call wrote through `lpData`; empty when it wrote nothing. -/
  data : List Nat
  /-- Value left in `*lpcbData`. -/
  cbData : Nat
deriving DecidableEq

/-- Model of `RegQueryValueEx(hKey, lpValueName, nullptr, lpType, lpData, lpcbData)`.
`lpData` tells whether a buffer is passed, `lpcbData` is `none` for a null pointer and otherwise
the value of `*lpcbData` on entry (the size the caller claims for the buffer).  Without a buffer
the call reports the size of the data; with a buffer that is large enough it copies the data;
with a buffer that is too small it reports `ERROR_MORE_DATA` and the required size and leaves the
buffer alone. -/
def RegQueryValueEx (os : Os) (hKey : Nat) (lpValueName : List Nat) (lpData : Bool)
    (lpcbData : Option Nat) : QueryResult :=
  match os.keys hKey with
  | none => ⟨ERROR_INVALID_HANDLE, 0, [], lpcbData.getD 0⟩
  | some k =>
    match assocFind lpValueName k.values with
    | none => ⟨ERROR_FILE_NOT_FOUND, 0, [], lpcbData.getD 0⟩
    | some v =>
      match lpData, lpcbData with
      | true, none => ⟨ERROR_INVALID_PARAMETER, 0, [], 0⟩
      | false, _ => ⟨ERROR_SUCCESS, v.dwType, [], v.data.length⟩
      | true, some cb =>
        if v.data.length ≤ cb then ⟨ERROR_SUCCESS, v.dwType, v.data, v.data.length⟩
        else ⟨ERROR_MORE_DATA, v.dwType, [], v.data.length⟩

/-- Model of `RegSetValueEx(hKey, lpValueName, 0, dwType, lpData, cbData)`: `mem` is the memory
readable at `lpData`; the first `cbData` bytes of it are stored under the name together with
the type tag, unchanged. -/
def RegSetValueEx (os : Os) (hKey : Nat) (lpValueName : List Nat) (dwType : Nat)
    (mem : List Nat) (cbData : Nat) : Nat × Os :=
  let calls := os.calls ++ [OsCall.RegSetValueEx hKey lpValueName dwType cbData]
  match os.keys hKey with
  | none => (ERROR_INVALID_HANDLE, { os with calls := calls })
  | some k =>
    (ERROR_SUCCESS,
      { os with
        keys := Function.update os.keys hKey
          (some (Key.mk (assocSet lpValueName ⟨dwType, mem.take cbData⟩ k.values) k.subkeys))
        calls := calls })

/-- Model of `RegDeleteValue(hKey, lpValueName)`. -/
def RegDeleteValue (os : Os) (hKey : Nat) (lpValueName : List Nat) : Nat × Os :=
  let calls := os.calls ++ [OsCall.RegDeleteValue hKey lpValueName]
  match os.keys hKey with
  | none => (ERROR_INVALID_HANDLE, { os with calls := calls })
  | some k =>
    match assocFind lpValueName k.values with
    | none => (ERROR_FILE_NOT_FOUND, { os with calls := calls })
    | some _ =>
      (ERROR_SUCCESS,
        { os with
          keys := Function.update os.keys hKey
            (some (Key.mk (assocErase lpValueName k.values) k.subkeys))
          calls := calls })

/-- Model of `RegDeleteTree(hKey, lpSubKey)` for a non-null `lpSubKey`: the child key of that
name goes away with everything below it. -/
def RegDeleteTree (os : Os) (hKey : Nat) (lpSubKey : List Nat) : Nat × Os :=
  let calls := os.calls ++ [OsCall.RegDeleteTree hKey lpSubKey]
  match os.keys hKey with
  | none => (ERROR_INVALID_HANDLE, { os with calls := calls })
  | some k =>
    match assocFind lpSubKey k.subkeys with
    | none => (ERROR_FILE_NOT_FOUND, { os with calls := calls })
    | some _ =>
      (ERROR_SUCCESS,
        { os with
          keys := Function.update os.keys hKey
            (some (Key.mk k.values (assocErase lpSubKey k.subkeys)))
          calls := calls })

/-- Model of `RegQueryInfoKey`, reduced to what the header asks for: the status, the number of
child keys and the length of the longest child name. -/
def RegQueryInfoKey (os : Os) (hKey : Nat) : Nat × Nat × Nat :=
  match os.keys hKey with
  | none => (ERROR_INVALID_HANDLE, 0, 0)
  | some k => (ERROR_SUCCESS, k.subkeys.length, (k.subkeys.map (fun e => e.1.length)).foldr max 0)

/-- Model of `RegEnumKeyEx(hKey, dwIndex, lpName, lpcchName, ...)`: `cchName` is the size of the
name buffer in characters on entry.  That size has to include the terminating null character; on
success the call stores the name and reports its length without the terminator. -/
def RegEnumKeyEx (os : Os) (hKey : Nat) (dwIndex : Nat) (cchName : Nat) : Nat × List Nat × Nat :=
  match os.keys hKey with
  | none => (ERROR_INVALID_HANDLE, [], cchName)
  | some k =>
    match k.subkeys.get? dwIndex with
    | none => (ERROR_NO_MORE_ITEMS, [], cchName)
    | some e =>
      if e.1.length + 1 ≤ cchName then (ERROR_SUCCESS, e.1, e.1.length)
      else (ERROR_MORE_DATA, [], cchName)

/-- Model of `RegOpenKeyEx(hKey, lpSubKey, 0, samDesired, phkResult)`. -/
def RegOpenKeyEx (os : Os) (hKey : Nat) (lpSubKey : List Nat) (samDesired : Nat) : OpenAnswer :=
  os.openAnswer hKey lpSubKey samDesired

/-- Model of `RegCreateKeyEx(hKey, lpSubKey, 0, nullptr, REG_OPTION_NON_VOLATILE,
KEY_ALL_ACCESS, nullptr, phkResult, nullptr)`. -/
def RegCreateKeyEx (os : Os) (hKey : Nat) (lpSubKey : List Nat) : OpenAnswer :=
  os.createAnswer hKey lpSubKey

/-- Model of `RegCloseKey(hKey)`: the handle denotes nothing afterwards. -/
def RegCloseKey (os : Os) (hKey : Nat) : Nat × Os :=
  let calls := os.calls ++ [OsCall.RegCloseKey hKey]
  match os.keys hKey with
  | none => (ERROR_INVALID_HANDLE, { os with calls := calls })
  | some _ => (ERROR_SUCCESS, { os with keys := Function.update os.keys hKey none, calls := calls })

/-! ## The value classes -/

/-- The enumeration `Registry::Type`. -/
inductive Type_ where
  | NUL | BOOLEAN | INT32 | INT64 | STRING | BINARY
deriving DecidableEq

/-- An object of the `RegistryValue` hierarchy, given by its class and the member `m_value` of
that class; `base` is an object whose class is `RegistryValue` itself. -/
inductive RegistryValue where
  | base
  | RegistryBoolean (m_value : Bool)
  | RegistryInt32 (m_value : Int)
  | RegistryInt64 (m_value : Int)
  | RegistryString (m_value : List Nat)
  | RegistryBinary (m_value : List Nat)
deriving DecidableEq

namespace RegistryValue

/-- The virtual `GetType`: `NUL` in the base class, the template argument `tag` in
`Value<tag, T>`. -/
def GetType : RegistryValue → Type_
  | base => Type_.NUL
  | RegistryBoolean _ => Type_.BOOLEAN
  | RegistryInt32 _ => Type_.INT32
  | RegistryInt64 _ => Type_.INT64
  | RegistryString _ => Type_.STRING
  | RegistryBinary _ => Type_.BINARY

/-- The member `m_type` of `Value<tag, T>`, set to `tag` by both constructors; the base class has
no such member. -/
def m_type : RegistryValue → Option Type_
  | base => none
  | v => some v.GetType

/-- The virtual `IsNull`: `true` in the base class, `m_type == NUL` in `Value<tag, T>`. -/
def IsNull : RegistryValue → Bool
  | base => true
  | v => v.m_type == some Type_.NUL

def IsInt32 : RegistryValue → Bool
  | base => false
  | v => v.m_type == some Type_.INT32

def IsInt64 : RegistryValue → Bool
  | base => false
  | v => v.m_type == some Type_.INT64

def IsNumber : RegistryValue → Bool
  | base => false
  | v => v.m_type == some Type_.INT32 || v.m_type == some Type_.INT64

def IsString : RegistryValue → Bool
  | base => false
  | v => v.m_type == some Type_.STRING

def IsBool : RegistryValue → Bool
  | base => false
  | v => v.m_type == some Type_.BOOLEAN

def GetBoolean : RegistryValue → Bool
  | RegistryBoolean b => b
  | _ => false

def GetInt32 : RegistryValue → Int
  | RegistryInt32 v => v
  | _ => 0

def GetInt64 : RegistryValue → Int
  | RegistryInt64 v => v
  | _ => 0

def GetString : RegistryValue → List Nat
  | RegistryString s => s
  | _ => []

def GetBinary : RegistryValue → Option (List Nat)
  | RegistryBinary b => some b
  | _ => none

/-- The implicitly defined `RegistryValue& RegistryValue::operator=(const RegistryValue&)`: it
copies the data members of the base class, of which there are none, and leaves the class of the
assigned-to object as it is. -/
def assign (self _other : RegistryValue) : RegistryValue := self

end RegistryValue

/-! ## The key wrapper -/

/-- The class `RegistryKey`: its one data member. -/
structure RegistryKey where
  m_hKey : Nat
deriving DecidableEq

namespace RegistryKey

/-- The condition under which the destructor calls `RegCloseKey` (with `WINVER >= 0x0400`). -/
def closesHandle (self : RegistryKey) : Bool :=
  (self.m_hKey != 0) &&
    !(decide (self.m_hKey ≥ HKEY_CLASSES_ROOT) &&
      decide (self.m_hKey ≤ HKEY_CURRENT_USER_LOCAL_SETTINGS))

/-- The destructor `~RegistryKey()`. -/
def destructor (self : RegistryKey) (os : Os) : Os :=
  if self.closesHandle then (RegCloseKey os self.m_hKey).2 else os

/-- The method `Open(path, samDesired)`; `none` is the empty `RegistryKey_ptr`. -/
def Open (self : RegistryKey) (os : Os) (path : List Nat) (samDesired : Nat) :
    Option RegistryKey :=
  let r := RegOpenKeyEx os self.m_hKey (c_str path) samDesired
  if r.lStatus = ERROR_SUCCESS then some (RegistryKey.mk r.hKey) else none

/-- The method `Create(path)`. -/
def Create (self : RegistryKey) (os : Os) (path : List Nat) : Option RegistryKey :=
  let r := RegCreateKeyEx os self.m_hKey (c_str path)
  if r.lStatus = ERROR_SUCCESS then some (RegistryKey.mk r.hKey) else none

/-- The method `Exists(path)`: the handle it was given, if any, is closed again. -/
def Exists (self : RegistryKey) (os : Os) (path : List Nat) : Bool × Os :=
  let r := RegOpenKeyEx os self.m_hKey (c_str path) KEY_READ
  let os1 := if r.hKey ≠ 0 then (RegCloseKey os r.hKey).2 else os
  (decide (r.lStatus = ERROR_SUCCESS), os1)

/-- The method `HasValue(subKey)`. -/
def HasValue (self : RegistryKey) (os : Os) (subKey : List Nat) : Bool :=
  let hasValue := false
  let q := RegQueryValueEx os self.m_hKey (c_str subKey) false none
  if q.lStatus = ERROR_SUCCESS then true else hasValue

/-- The method `GetBoolean(name)`. -/
def GetBoolean (self : RegistryKey) (os : Os) (name : List Nat) : Bool :=
  let ret := false
  let q := RegQueryValueEx os self.m_hKey (c_str name) true (some 4)
  let dwData := ofBytesLE (writeBuf (toBytesLE 4 0) q.data)
  if q.lStatus = ERROR_SUCCESS then
    if q.dwType = REG_DWORD then (if dwData = 0 then false else true) else ret
  else ret

/-- The method `SetBoolean(name, value)`. -/
def SetBoolean (self : RegistryKey) (os : Os) (name : List Nat) (value : Bool) : Bool × Os :=
  let dwValue : Nat := if value then 1 else 0
  let r := RegSetValueEx os self.m_hKey (c_str name) REG_DWORD (toBytesLE 4 dwValue) 4
  (decide (r.1 = ERROR_SUCCESS), r.2)

/-- The method `GetInt32(name)`: neither the status nor the type of the value is looked at; the
`DWORD` read is converted to `long`. -/
def GetInt32 (self : RegistryKey) (os : Os) (name : List Nat) : Int :=
  let q := RegQueryValueEx os self.m_hKey (c_str name) true (some 4)
  let dwData := ofBytesLE (writeBuf (toBytesLE 4 0) q.data)
  toSigned 32 dwData

/-- The method `SetInt32(name, value)`; `long` has 32 bits. -/
def SetInt32 (self : RegistryKey) (os : Os) (name : List Nat) (value : Int) : Bool × Os :=
  let r := RegSetValueEx os self.m_hKey (c_str name) REG_DWORD (toBytesLE 4 (toUnsigned 32 value)) 4
  (decide (r.1 = ERROR_SUCCESS), r.2)

/-- The method `GetInt64(name)`. -/
def GetInt64 (self : RegistryKey) (os : Os) (name : List Nat) : Int :=
  let q := RegQueryValueEx os self.m_hKey (c_str name) true (some 8)
  let lData := ofBytesLE (writeBuf (toBytesLE 8 0) q.data)
  toSigned 64 lData

/-- The method `SetInt64(name, value)`. -/
def SetInt64 (self : RegistryKey) (os : Os) (name : List Nat) (value : Int) : Bool × Os :=
  let r := RegSetValueEx os self.m_hKey (c_str name) REG_QWORD (toBytesLE 8 (toUnsigned 64 value)) 8
  (decide (r.1 = ERROR_SUCCESS), r.2)

/-- The number of wide characters `GetString` allocates for a value of `cbData` bytes
(`new WCHAR[cbData/2]`). -/
def stringBufferLength (cbData : Nat) : Nat := cbData / 2

/-- The method `GetString(name)`.  The buffer holds `cbData/2` wide characters of uninitialised
storage; the second query is told that it may write `cbData` bytes; what lands inside the buffer
is then read as wide characters. -/
def GetString (self : RegistryKey) (os : Os) (junk : Nat → Nat) (name : List Nat) : List Nat :=
  let value : List Nat := []
  let q1 := RegQueryValueEx os self.m_hKey (c_str name) false (some 0)
  if q1.lStatus = ERROR_SUCCESS ∧ (q1.dwType = REG_SZ ∨ q1.dwType = REG_EXPAND_SZ) then
    let capacity := 2 * stringBufferLength q1.cbData
    let q2 := RegQueryValueEx os self.m_hKey (c_str name) true (some q1.cbData)
    let data := toWChars ((writeBuf (uninit junk capacity) q2.data).take capacity)
    if q2.lStatus = ERROR_SUCCESS ∧ q2.cbData > 1 then
      if data.get? (q2.cbData / 2 - 1) = some 0 then c_str data
      else data.take (q2.cbData / 2)
    else value
  else value

/-- The size argument both string setters pass: `DWORD cbData = DWORD(value.length())`, then
`cbData * sizeof(WCHAR)` converted to the `DWORD` parameter. -/
def stringByteCount (value : List Nat) : Nat := DWORD (DWORD value.length * 2)

/-- The method `SetString(name, value)`. -/
def SetString (self : RegistryKey) (os : Os) (name value : List Nat) : Bool × Os :=
  let r := RegSetValueEx os self.m_hKey (c_str name) REG_SZ (c_strBytes value)
    (stringByteCount value)
  (decide (r.1 = ERROR_SUCCESS), r.2)

/-- The method `SetExpandString(name, value)`. -/
def SetExpandString (self : RegistryKey) (os : Os) (name value : List Nat) : Bool × Os :=
  let r := RegSetValueEx os self.m_hKey (c_str name) REG_EXPAND_SZ (c_strBytes value)
    (stringByteCount value)
  (decide (r.1 = ERROR_SUCCESS), r.2)

/-- The method `GetValue(name)`.  The local `ret` is a `RegistryValue` object; every branch
assigns an object of a derived class to it and `ret` is returned by value.  With a null handle
the leading `assert` fails, which is `none` here. -/
def GetValue (self : RegistryKey) (os : Os) (junk : Nat → Nat) (name : List Nat) :
    Option RegistryValue :=
  if self.m_hKey = 0 then none
  else
    let ret := RegistryValue.base
    let q := RegQueryValueEx os self.m_hKey (c_str name) false (some 0)
    if q.lStatus = ERROR_SUCCESS then
      if q.dwType = REG_DWORD then
        let q2 := RegQueryValueEx os self.m_hKey (c_str name) true (some 4)
        let value := toSigned 32 (ofBytesLE (writeBuf (toBytesLE 4 0) q2.data))
        if q2.lStatus = ERROR_SUCCESS then some (ret.assign (RegistryValue.RegistryInt32 value))
        else some ret
      else if q.dwType = REG_QWORD then
        let q2 := RegQueryValueEx os self.m_hKey (c_str name) true (some 8)
        let value := toSigned 64 (ofBytesLE (writeBuf (toBytesLE 8 0) q2.data))
        if q2.lStatus = ERROR_SUCCESS then some (ret.assign (RegistryValue.RegistryInt64 value))
        else some ret
      else if q.dwType = REG_SZ then
        let capacity := 2 * q.cbData
        let q2 := RegQueryValueEx os self.m_hKey (c_str name) true (some q.cbData)
        let data := toWChars ((writeBuf (uninit junk capacity) q2.data).take capacity)
        if q2.lStatus = ERROR_SUCCESS then
          some (ret.assign (RegistryValue.RegistryString (data.take q2.cbData)))
        else some ret
      else if q.dwType = REG_BINARY then
        let capacity := q.cbData
        let q2 := RegQueryValueEx os self.m_hKey (c_str name) true (some q.cbData)
        let data := (writeBuf (uninit junk capacity) q2.data).take capacity
        if q2.lStatus = ERROR_SUCCESS then some (ret.assign (RegistryValue.RegistryBinary data))
        else some ret
      else some ret
    else some ret

/-- The method `Delete(name)`. -/
def Delete (self : RegistryKey) (os : Os) (name : List Nat) : Bool × Os :=
  let r1 := RegDeleteValue os self.m_hKey (c_str name)
  if r1.1 ≠ ERROR_SUCCESS then
    let r2 := RegDeleteTree r1.2 self.m_hKey (c_str name)
    (decide (r2.1 = ERROR_SUCCESS), r2.2)
  else (decide (r1.1 = ERROR_SUCCESS), r1.2)

/-- One round of the loop of `GetSubKeys`: the name buffer is `WCHAR pwszName[255]` and
`dwNameLen` starts at 255. -/
def GetSubKeys.body (self : RegistryKey) (os : Os) (vecRet : List (List Nat)) (i : Nat) :
    List (List Nat) :=
  let e := RegEnumKeyEx os self.m_hKey i 255
  if e.1 = ERROR_SUCCESS then vecRet ++ [(e.2.1 ++ [0]).take e.2.2] else vecRet

/-- The method `GetSubKeys()`. -/
def GetSubKeys (self : RegistryKey) (os : Os) : List (List Nat) :=
  let vecRet : List (List Nat) := []
  let info := RegQueryInfoKey os self.m_hKey
  if info.1 = ERROR_SUCCESS ∧ info.2.1 > 0 then
    (List.range info.2.1).foldl (GetSubKeys.body self os) vecRet
  else vecRet

end RegistryKey

/-! ## The root objects

The header only declares `ClassesRoot`, `CurrentUser`, `LocalMachine`, `Users` and
`CurrentConfig` (`extern RegistryKey_ptr ...`); the file that defines them is not at hand. -/

/-- Modelled from the spec: the definition of the root object `ClassesRoot` is missing; the
spec describes the five roots as singletons wrapping the platform's fixed well-known root
locations, here the predefined handle `HKEY_CLASSES_ROOT`. -/
def ClassesRoot : RegistryKey := ⟨HKEY_CLASSES_ROOT⟩

/-- Modelled from the spec: the definition of the root object `CurrentUser` is missing; it
wraps the predefined handle `HKEY_CURRENT_USER`. -/
def CurrentUser : RegistryKey := ⟨HKEY_CURRENT_USER⟩

/-- Modelled from the spec: the definition of the root object `LocalMachine` is missing; it
wraps the predefined handle `HKEY_LOCAL_MACHINE`. -/
def LocalMachine : RegistryKey := ⟨HKEY_LOCAL_MACHINE⟩

/-- Modelled from the spec: the definition of the root object `Users` is missing; it wraps the
predefined handle `HKEY_USERS`. -/
def Users : RegistryKey := ⟨HKEY_USERS⟩

/-- Modelled from the spec: the definition of the root object `CurrentConfig` is missing; it
wraps the predefined handle `HKEY_CURRENT_CONFIG`. -/
def CurrentConfig : RegistryKey := ⟨HKEY_CURRENT_CONFIG⟩

/-! ## Auxiliary definitions for the statements -/

/-- The typed writes of the header with their payloads. -/
inductive TypedWrite where
  | boolean (value : Bool)
  | int32 (value : Int)
  | int64 (value : Int)
  | string (value : List Nat)
  | expandString (value : List Nat)

/-- Run one typed write under the name `name`. -/
def RegistryKey.write (self : RegistryKey) (os : Os) (name : List Nat) : TypedWrite → Bool × Os
  | TypedWrite.boolean b => self.SetBoolean os name b
  | TypedWrite.int32 v => self.SetInt32 os name v
  | TypedWrite.int64 v => self.SetInt64 os name v
  | TypedWrite.string s => self.SetString os name s
  | TypedWrite.expandString s => self.SetExpandString os name s

/-- The handles the destructor never closes: the numeric range from `HKEY_CLASSES_ROOT` to
`HKEY_CURRENT_USER_LOCAL_SETTINGS`. -/
def reservedHandle (h : Nat) : Prop :=
  HKEY_CLASSES_ROOT ≤ h ∧ h ≤ HKEY_CURRENT_USER_LOCAL_SETTINGS

instance (h : Nat) : Decidable (reservedHandle h) := by
  unfold reservedHandle
  infer_instance

/-- What `GetString` makes of the raw data of a text value: the closed form of its result
(`GetString_of_found` below). -/
def stringOfData (data : List Nat) : List Nat :=
  let chars := toWChars (data.take (2 * (data.length / 2)))
  if data.length > 1 then
    if chars.get? (data.length / 2 - 1) = some 0 then c_str chars
    else chars.take (data.length / 2)
  else []

/-- The capacity in bytes of the buffer `GetString` allocates after the size query reported
`cbData` bytes: `stringBufferLength cbData` wide characters of two bytes each. -/
def RegistryKey.stringBufferBytes (cbData : Nat) : Nat :=
  2 * RegistryKey.stringBufferLength cbData

/-- The byte count the first query of `GetString` leaves in `cbData`. -/
def RegistryKey.GetString.reported (self : RegistryKey) (os : Os) (name : List Nat) : Nat :=
  (RegQueryValueEx os self.m_hKey (c_str name) false (some 0)).cbData

/-- The bytes the second query of `GetString` writes through the pointer `data`; there is no
second query, and so nothing is written, when the first one fails or reports another type. -/
def RegistryKey.GetString.written (self : RegistryKey) (os : Os) (name : List Nat) : List Nat :=
  let q1 := RegQueryValueEx os self.m_hKey (c_str name) false (some 0)
  if q1.lStatus = ERROR_SUCCESS ∧ (q1.dwType = REG_SZ ∨ q1.dwType = REG_EXPAND_SZ) then
    (RegQueryValueEx os self.m_hKey (c_str name) true (some q1.cbData)).data
  else []

/-! ## Sample data -/

/-- A key with four text values: `t` holds "AB" and a terminator; `e` holds "A", a NUL, "B" and
a terminator; `m` (expandable) holds "A", a NUL and "B" without terminator; `o` holds three
bytes, an odd count. -/
def sampleTexts : Key :=
  Key.mk
    [([116], ⟨REG_SZ, [65, 0, 66, 0, 0, 0]⟩),
      ([101], ⟨REG_SZ, [65, 0, 0, 0, 66, 0, 0, 0]⟩),
      ([109], ⟨REG_EXPAND_SZ, [65, 0, 0, 0, 66, 0]⟩),
      ([111], ⟨REG_SZ, [65, 0, 66]⟩)]
    []

/-- A system in which handle 4 denotes `sampleTexts`. -/
def sampleOsTexts : Os where
  keys := fun h => if h = 4 then some sampleTexts else none
  calls := []
  openAnswer := fun _ _ _ => ⟨ERROR_FILE_NOT_FOUND, 0⟩
  createAnswer := fun _ _ => ⟨ERROR_ACCESS_DENIED, 0⟩


/-- A system in which handle 4 denotes a key whose unnamed (default) value is set, opening the
empty path yields handle 8 and creating the empty path yields handle 12. -/
def sampleOsEmptyPath : Os where
  keys := fun h => if h = 4 then some (Key.mk [([], ⟨REG_SZ, [65, 0]⟩)] []) else none
  calls := []
  openAnswer := fun _ sub _ => if sub = [] then ⟨ERROR_SUCCESS, 8⟩ else ⟨ERROR_FILE_NOT_FOUND, 0⟩
  createAnswer := fun _ sub => if sub = [] then ⟨ERROR_SUCCESS, 12⟩ else ⟨ERROR_ACCESS_DENIED, 0⟩

/-- A child name of 255 letters `a`, the longest the registry allows. -/
def longName : List Nat := List.replicate 255 97

/-- A system in which handle 4 denotes a key with two children: one called `longName` and one
called `b`. -/
def sampleOsLongChild : Os where
  keys := fun h =>
    if h = 4 then some (Key.mk [] [(longName, Key.mk [] []), ([98], Key.mk [] [])]) else none
  calls := []
  openAnswer := fun _ _ _ => ⟨ERROR_FILE_NOT_FOUND, 0⟩
  createAnswer := fun _ _ => ⟨ERROR_ACCESS_DENIED, 0⟩

/-- A system in which the predefined handle `HKEY_LOCAL_MACHINE` denotes a key with one child
`c` and in which handle 8 denotes that child.  A request to open the empty path on a predefined
handle is answered the way `RegOpenKeyEx` is documented to answer it: success, and the same
predefined handle is handed back.  Opening or creating `c` yields the new handles 8 and 12. -/
def sampleOsRoots : Os where
  keys := fun h =>
    if h = HKEY_LOCAL_MACHINE then some (Key.mk [] [([99], Key.mk [] [])])
    else if h = 8 then some (Key.mk [] [])
    else none
  calls := []
  openAnswer := fun h sub _ =>
    if sub = [] ∧ reservedHandle h then ⟨ERROR_SUCCESS, h⟩
    else if sub = [99] then ⟨ERROR_SUCCESS, 8⟩
    else ⟨ERROR_FILE_NOT_FOUND, 0⟩
  createAnswer := fun _ sub =>
    if sub = [99] then ⟨ERROR_SUCCESS, 12⟩ else ⟨ERROR_ACCESS_DENIED, 0⟩

/-- A text of `2 ^ 31` letters `A`. -/
def longText : List Nat := List.replicate 2147483648 65


/-- A small key: a 32-bit integer `x` (7), a text value `s` ("AB" without terminator), and one
child key `c` that has a child of its own. -/
def sampleKey : Key :=
  Key.mk
    [([120], ⟨REG_DWORD, [7, 0, 0, 0]⟩), ([115], ⟨REG_SZ, [65, 0, 66, 0]⟩)]
    [([99], Key.mk [([118], ⟨REG_SZ, []⟩)] [([100], Key.mk [] [])])]

/-- A system in which handle 4 denotes `sampleKey`, nothing has been requested yet, opening
fails with "not found" and creating fails with "access denied". -/
def sampleOs : Os where
  keys := fun h => if h = 4 then some sampleKey else none
  calls := []
  openAnswer := fun _ _ _ => ⟨ERROR_FILE_NOT_FOUND, 0⟩
  createAnswer := fun _ _ => ⟨ERROR_ACCESS_DENIED, 0⟩

/-! ## Lemmas on the store and on the encodings -/

theorem assocFind_assocSet {β : Type} (name : List Nat) (b : β) (l : List (List Nat × β)) :
    assocFind name (assocSet name b l) = some b := by
  induction l with
  | nil => simp [assocSet, assocFind]
  | cons e rest ih =>
    obtain ⟨n, c⟩ := e
    by_cases h : n = name
    · simp [assocSet, assocFind, h]
    · simp [assocSet, assocFind, h, ih]

theorem assocFind_assocErase {β : Type} (name : List Nat) (l : List (List Nat × β)) :
    assocFind name (assocErase name l) = none := by
  induction l with
  | nil => simp [assocErase, assocFind]
  | cons e rest ih =>
    obtain ⟨n, c⟩ := e
    by_cases h : n = name
    · simp [assocErase, h, ih]
    · simp [assocErase, assocFind, h, ih]

theorem assocErase_of_not_found {β : Type} (name : List Nat) (l : List (List Nat × β))
    (h : assocFind name l = none) : assocErase name l = l := by
  induction l with
  | nil => rfl
  | cons e rest ih =>
    obtain ⟨n, c⟩ := e
    by_cases hn : n = name
    · simp [assocFind, hn] at h
    · simp only [assocFind, hn, if_false] at h
      simp [assocErase, hn, ih h]

theorem length_toBytesLE (n x : Nat) : (toBytesLE n x).length = n := by
  induction n generalizing x with
  | zero => rfl
  | succ n ih => simp [toBytesLE, ih]

theorem ofBytesLE_toBytesLE (n x : Nat) : ofBytesLE (toBytesLE n x) = x % 256 ^ n := by
  induction n generalizing x with
  | zero => simp [toBytesLE, ofBytesLE, Nat.mod_one]
  | succ n ih =>
    simp only [toBytesLE, ofBytesLE, ih, Nat.mod_mod]
    rw [pow_succ, Nat.mul_comm (256 ^ n) 256, Nat.mod_mul]

theorem toSigned_toUnsigned_32 (v : Int) (hlo : -2147483648 ≤ v) (hhi : v ≤ 2147483647) :
    toSigned 32 (toUnsigned 32 v % 256 ^ 4) = v := by
  unfold toSigned toUnsigned
  norm_num
  omega

theorem toSigned_toUnsigned_64 (v : Int) (hlo : -9223372036854775808 ≤ v)
    (hhi : v ≤ 9223372036854775807) :
    toSigned 64 (toUnsigned 64 v % 256 ^ 8) = v := by
  unfold toSigned toUnsigned
  norm_num
  omega

theorem length_wstringBytes (s : List Nat) : (wstringBytes s).length = 2 * s.length := by
  induction s with
  | nil => rfl
  | cons c cs ih => simp [wstringBytes, ih]; omega

theorem toWChars_wstringBytes (s : List Nat) (hwf : ∀ c ∈ s, c < 65536) :
    toWChars (wstringBytes s) = s := by
  induction s with
  | nil => rfl
  | cons c cs ih =>
    have hc : c < 65536 := hwf c (List.mem_cons_self _ _)
    have hcs : ∀ d ∈ cs, d < 65536 := fun d hd => hwf d (List.mem_cons_of_mem _ hd)
    simp only [wstringBytes, toWChars, ih hcs]
    congr 1
    omega

/-! ## Lemmas on the API model -/

theorem RegSetValueEx_invalid (os : Os) (h : Nat) (n : List Nat) (ty : Nat) (mem : List Nat)
    (cb : Nat) (hk : os.keys h = none) :
    (RegSetValueEx os h n ty mem cb).1 = ERROR_INVALID_HANDLE := by
  simp [RegSetValueEx, hk]

theorem RegSetValueEx_valid (os : Os) (h : Nat) (n : List Nat) (ty : Nat) (mem : List Nat)
    (cb : Nat) (k : Key) (hk : os.keys h = some k) :
    (RegSetValueEx os h n ty mem cb).1 = ERROR_SUCCESS ∧
    (RegSetValueEx os h n ty mem cb).2.keys h =
      some (Key.mk (assocSet n ⟨ty, mem.take cb⟩ k.values) k.subkeys) := by
  simp [RegSetValueEx, hk]

/-- A successful write means the handle denotes a key. -/
theorem RegSetValueEx_success (os : Os) (h : Nat) (n : List Nat) (ty : Nat) (mem : List Nat)
    (cb : Nat) (hok : (RegSetValueEx os h n ty mem cb).1 = ERROR_SUCCESS) :
    ∃ k, os.keys h = some k := by
  cases hk : os.keys h with
  | none =>
    rw [RegSetValueEx_invalid os h n ty mem cb hk] at hok
    exact absurd hok (by decide)
  | some k => exact ⟨k, rfl⟩

/-- Reading back through the same handle and name right after a write. -/
theorem RegQueryValueEx_after_set (os : Os) (h : Nat) (n : List Nat) (ty : Nat) (mem : List Nat)
    (cb : Nat) (lpData : Bool) (lpcbData : Option Nat)
    (hok : (RegSetValueEx os h n ty mem cb).1 = ERROR_SUCCESS) :
    RegQueryValueEx (RegSetValueEx os h n ty mem cb).2 h n lpData lpcbData =
      match lpData, lpcbData with
      | true, none => ⟨ERROR_INVALID_PARAMETER, 0, [], 0⟩
      | false, _ => ⟨ERROR_SUCCESS, ty, [], (mem.take cb).length⟩
      | true, some c =>
        if (mem.take cb).length ≤ c then ⟨ERROR_SUCCESS, ty, mem.take cb, (mem.take cb).length⟩
        else ⟨ERROR_MORE_DATA, ty, [], (mem.take cb).length⟩ := by
  obtain ⟨k, hk⟩ := RegSetValueEx_success os h n ty mem cb hok
  have hs := (RegSetValueEx_valid os h n ty mem cb k hk).2
  simp only [RegQueryValueEx, hs, Key.values, assocFind_assocSet]

theorem take_writeBuf (buf data : List Nat) (cap : Nat) (h : cap ≤ data.length) :
    (writeBuf buf data).take cap = data.take cap := by
  unfold writeBuf
  exact List.take_append_of_le_length h

/-- Closed form of `GetString` on a stored text value. -/
theorem GetString_of_found (self : RegistryKey) (os : Os) (junk : Nat → Nat) (name : List Nat)
    (k : Key) (v : RegValue) (hk : os.keys self.m_hKey = some k)
    (hf : assocFind (c_str name) k.values = some v)
    (hty : v.dwType = REG_SZ ∨ v.dwType = REG_EXPAND_SZ) :
    self.GetString os junk name = stringOfData v.data := by
  have hcap : 2 * (v.data.length / 2) ≤ v.data.length := by omega
  simp only [RegistryKey.GetString, RegQueryValueEx, hk, hf, RegistryKey.stringBufferLength, stringOfData,
    le_refl, if_true, true_and, hty, take_writeBuf _ _ _ hcap]

/-! ## Text values: write, then read -/

theorem take_c_strBytes (v : List Nat) (hlen : v.length < 2147483648) :
    (c_strBytes v).take (RegistryKey.stringByteCount v) = wstringBytes v := by
  have hcb : RegistryKey.stringByteCount v = (wstringBytes v).length := by
    rw [length_wstringBytes]
    unfold RegistryKey.stringByteCount DWORD
    omega
  rw [hcb]
  unfold c_strBytes
  exact List.take_left' rfl

theorem get?_last_ne_zero (v : List Nat) (hnul : 0 ∉ v) :
    v.get? (v.length - 1) ≠ some 0 := by
  intro h
  exact hnul (List.get?_mem h)

theorem stringOfData_wstringBytes (v : List Nat) (hnul : 0 ∉ v) (hwf : ∀ c ∈ v, c < 65536) :
    stringOfData (wstringBytes v) = v := by
  have hhalf : 2 * v.length / 2 = v.length := by omega
  have htake : (wstringBytes v).take (2 * v.length) = wstringBytes v :=
    List.take_of_length_le (by rw [length_wstringBytes])
  simp only [stringOfData, length_wstringBytes, hhalf, htake, toWChars_wstringBytes v hwf,
    get?_last_ne_zero v hnul, if_false, List.take_length]
  split
  · rfl
  · rename_i hsmall
    cases v with
    | nil => rfl
    | cons c cs => simp only [List.length_cons] at hsmall; omega

/-- Both string setters, followed by `GetString` on the same name: the result is what
`GetString` makes of the bytes the setter handed to the system. -/
theorem GetString_after_set (self : RegistryKey) (os : Os) (junk : Nat → Nat) (n v : List Nat)
    (ty : Nat) (hty : ty = REG_SZ ∨ ty = REG_EXPAND_SZ)
    (hok : (RegSetValueEx os self.m_hKey (c_str n) ty (c_strBytes v)
      (RegistryKey.stringByteCount v)).1 = ERROR_SUCCESS) :
    self.GetString (RegSetValueEx os self.m_hKey (c_str n) ty (c_strBytes v)
      (RegistryKey.stringByteCount v)).2 junk n =
      stringOfData ((c_strBytes v).take (RegistryKey.stringByteCount v)) := by
  obtain ⟨k, hk⟩ := RegSetValueEx_success _ _ _ _ _ _ hok
  have hs := (RegSetValueEx_valid os self.m_hKey (c_str n) ty (c_strBytes v)
    (RegistryKey.stringByteCount v) k hk).2
  exact GetString_of_found self _ junk n _ ⟨ty, _⟩ hs (assocFind_assocSet _ _ _) hty

/-- C1, as amended: for every value name `n` and every wide string `v` without a NUL character
and with fewer than `2 ^ 31` characters (empty and one-character strings and non-ASCII text
included), a successful `SetString(n, v)` or `SetExpandString(n, v)` is followed by a
`GetString(n)` that returns exactly `v`. -/
theorem SetString_GetString_roundtrip (self : RegistryKey) (os : Os) (junk : Nat → Nat)
    (n v : List Nat) (hnul : 0 ∉ v) (hwf : ∀ c ∈ v, c < 65536) (hlen : v.length < 2147483648) :
    ((self.SetString os n v).1 = true →
      self.GetString (self.SetString os n v).2 junk n = v) ∧
    ((self.SetExpandString os n v).1 = true →
      self.GetString (self.SetExpandString os n v).2 junk n = v) := by
  constructor
  · intro hok
    have hok' : (RegSetValueEx os self.m_hKey (c_str n) REG_SZ (c_strBytes v)
        (RegistryKey.stringByteCount v)).1 = ERROR_SUCCESS := by
      simpa [RegistryKey.SetString] using hok
    have := GetString_after_set self os junk n v REG_SZ (Or.inl rfl) hok'
    simpa [RegistryKey.SetString, take_c_strBytes v hlen,
      stringOfData_wstringBytes v hnul hwf] using this
  · intro hok
    have hok' : (RegSetValueEx os self.m_hKey (c_str n) REG_EXPAND_SZ (c_strBytes v)
        (RegistryKey.stringByteCount v)).1 = ERROR_SUCCESS := by
      simpa [RegistryKey.SetExpandString] using hok
    have := GetString_after_set self os junk n v REG_EXPAND_SZ (Or.inr rfl) hok'
    simpa [RegistryKey.SetExpandString, take_c_strBytes v hlen,
      stringOfData_wstringBytes v hnul hwf] using this

theorem SetString_GetString_roundtrip_witness :
    (0 ∉ [65, 225, 382, 59]) ∧ (∀ c ∈ [65, 225, 382, 59], c < 65536) ∧
    ([65, 225, 382, 59] : List Nat).length < 2147483648 ∧
    ((RegistryKey.mk 4).SetString sampleOs [70, 67] [65, 225, 382, 59]).1 = true ∧
    (RegistryKey.mk 4).GetString
      ((RegistryKey.mk 4).SetString sampleOs [70, 67] [65, 225, 382, 59]).2 (fun _ => 0)
      [70, 67] = [65, 225, 382, 59] :=
  ⟨by decide, by decide, by decide, by decide,
    (SetString_GetString_roundtrip (RegistryKey.mk 4) sampleOs (fun _ => 0) [70, 67]
      [65, 225, 382, 59] (by decide) (by decide) (by decide)).1 (by decide)⟩

theorem length_longText : longText.length = 2147483648 :=
  List.length_replicate _ _

theorem stringByteCount_wrapped (v : List Nat) (hv : v.length = 2147483648) :
    RegistryKey.stringByteCount v = 0 := by
  unfold RegistryKey.stringByteCount DWORD
  rw [hv]
  norm_num

theorem stringByteCount_longText : RegistryKey.stringByteCount longText = 0 :=
  stringByteCount_wrapped longText length_longText

theorem longText_ne_nil : ([] : List Nat) ≠ longText := by
  intro h
  have h2 : ([] : List Nat).length = longText.length := congrArg List.length h
  rw [length_longText, List.length_nil] at h2
  omega

theorem mem_longText (c : Nat) (hc : c ∈ longText) : c = 65 :=
  List.eq_of_mem_replicate hc

/-- A text whose byte count wraps around to 0 is stored as no data and read back as the empty
string. -/
theorem GetString_after_SetString_wrapped (self : RegistryKey) (os : Os) (junk : Nat → Nat)
    (n v : List Nat) (hcb : RegistryKey.stringByteCount v = 0)
    (hok : (self.SetString os n v).1 = true) :
    self.GetString (self.SetString os n v).2 junk n = [] := by
  have hok' : (RegSetValueEx os self.m_hKey (c_str n) REG_SZ (c_strBytes v)
      (RegistryKey.stringByteCount v)).1 = ERROR_SUCCESS := by
    simpa [RegistryKey.SetString] using hok
  have hget := GetString_after_set self os junk n v REG_SZ (Or.inl rfl) hok'
  rw [hcb] at hget hok'
  simp only [RegistryKey.SetString, hcb]
  rw [hget]
  rfl

theorem SetString_valid (self : RegistryKey) (os : Os) (n v : List Nat) (k : Key)
    (hk : os.keys self.m_hKey = some k) : (self.SetString os n v).1 = true := by
  simp only [RegistryKey.SetString, decide_eq_true_eq]
  exact (RegSetValueEx_valid os self.m_hKey _ _ _ _ k hk).1

/-- C1 as stated fails for long texts: `longText` has `2 ^ 31` characters, none of them NUL, so
the byte count `SetString` passes wraps around to 0; the write succeeds and stores no data, and
`GetString` returns the empty string. -/
theorem SetString_GetString_longText :
    0 ∉ longText ∧ (∀ c ∈ longText, c < 65536) ∧
    ((RegistryKey.mk 4).SetString sampleOs [70, 67] longText).1 = true ∧
    (RegistryKey.mk 4).GetString
      ((RegistryKey.mk 4).SetString sampleOs [70, 67] longText).2 (fun _ => 0) [70, 67]
      ≠ longText := by
  have hok := SetString_valid (RegistryKey.mk 4) sampleOs [70, 67] longText sampleKey rfl
  refine ⟨?_, ?_, hok, ?_⟩
  · intro h
    have := mem_longText 0 h
    omega
  · intro c hc
    have := mem_longText c hc
    omega
  · rw [GetString_after_SetString_wrapped _ _ _ _ _ stringByteCount_longText hok]
    exact longText_ne_nil

/-! ## Integers and booleans: write, then read -/

theorem writeBuf_full (buf data : List Nat) (h : buf.length ≤ data.length) :
    writeBuf buf data = data := by
  unfold writeBuf
  rw [List.drop_of_length_le h, List.append_nil]

theorem take_toBytesLE (n x : Nat) : (toBytesLE n x).take n = toBytesLE n x :=
  List.take_of_length_le (by rw [length_toBytesLE])

/-- Reading `c` bytes back right after `c` bytes were written under the same name: the query
succeeds and the buffer holds the integer that was written, reduced to `c` bytes. -/
theorem read_after_write (os : Os) (h : Nat) (n : List Nat) (ty c x : Nat)
    (hok : (RegSetValueEx os h n ty (toBytesLE c x) c).1 = ERROR_SUCCESS) :
    (RegQueryValueEx (RegSetValueEx os h n ty (toBytesLE c x) c).2 h n true (some c)).lStatus
      = ERROR_SUCCESS ∧
    (RegQueryValueEx (RegSetValueEx os h n ty (toBytesLE c x) c).2 h n true (some c)).dwType
      = ty ∧
    ofBytesLE (writeBuf (toBytesLE c 0)
      (RegQueryValueEx (RegSetValueEx os h n ty (toBytesLE c x) c).2 h n true (some c)).data)
      = x % 256 ^ c := by
  rw [RegQueryValueEx_after_set os h n ty _ c true (some c) hok]
  simp only [take_toBytesLE, length_toBytesLE, le_refl, if_true, true_and]
  rw [writeBuf_full _ _ (by simp [length_toBytesLE]), ofBytesLE_toBytesLE]

/-- C2: after a successful `SetInt32(n, v)`, `GetInt32(n)` returns `v` for every 32-bit signed
`v`; after a successful `SetInt64(n, v)`, `GetInt64(n)` returns `v` for every 64-bit signed `v`;
after a successful `SetBoolean(n, b)`, `GetBoolean(n)` returns `b`. -/
theorem integer_boolean_roundtrip (self : RegistryKey) (os : Os) (n : List Nat) :
    (∀ v : Int, -2147483648 ≤ v → v ≤ 2147483647 → (self.SetInt32 os n v).1 = true →
      self.GetInt32 (self.SetInt32 os n v).2 n = v) ∧
    (∀ v : Int, -9223372036854775808 ≤ v → v ≤ 9223372036854775807 →
      (self.SetInt64 os n v).1 = true → self.GetInt64 (self.SetInt64 os n v).2 n = v) ∧
    (∀ b : Bool, (self.SetBoolean os n b).1 = true →
      self.GetBoolean (self.SetBoolean os n b).2 n = b) := by
  refine ⟨?_, ?_, ?_⟩
  · intro v hlo hhi hok
    have hok' : (RegSetValueEx os self.m_hKey (c_str n) REG_DWORD
        (toBytesLE 4 (toUnsigned 32 v)) 4).1 = ERROR_SUCCESS := by
      simpa [RegistryKey.SetInt32] using hok
    obtain ⟨_, _, h3⟩ := read_after_write os self.m_hKey (c_str n) REG_DWORD 4 _ hok'
    simp only [RegistryKey.GetInt32, RegistryKey.SetInt32, h3]
    exact toSigned_toUnsigned_32 v hlo hhi
  · intro v hlo hhi hok
    have hok' : (RegSetValueEx os self.m_hKey (c_str n) REG_QWORD
        (toBytesLE 8 (toUnsigned 64 v)) 8).1 = ERROR_SUCCESS := by
      simpa [RegistryKey.SetInt64] using hok
    obtain ⟨_, _, h3⟩ := read_after_write os self.m_hKey (c_str n) REG_QWORD 8 _ hok'
    simp only [RegistryKey.GetInt64, RegistryKey.SetInt64, h3]
    exact toSigned_toUnsigned_64 v hlo hhi
  · intro b hok
    have hok' : (RegSetValueEx os self.m_hKey (c_str n) REG_DWORD
        (toBytesLE 4 (if b then 1 else 0)) 4).1 = ERROR_SUCCESS := by
      simpa [RegistryKey.SetBoolean] using hok
    obtain ⟨h1, h2, h3⟩ := read_after_write os self.m_hKey (c_str n) REG_DWORD 4 _ hok'
    simp only [RegistryKey.GetBoolean, RegistryKey.SetBoolean, h1, h2, h3, if_true]
    cases b <;> simp

theorem integer_boolean_roundtrip_witness :
    ((-2147483648 : Int) ≤ -2147483648 ∧ (-2147483648 : Int) ≤ 2147483647 ∧
      ((RegistryKey.mk 4).SetInt32 sampleOs [66, 69] (-2147483648)).1 = true ∧
      (RegistryKey.mk 4).GetInt32
        ((RegistryKey.mk 4).SetInt32 sampleOs [66, 69] (-2147483648)).2 [66, 69]
        = -2147483648) ∧
    ((-9223372036854775808 : Int) ≤ 9223372036854775807 ∧
      (9223372036854775807 : Int) ≤ 9223372036854775807 ∧
      ((RegistryKey.mk 4).SetInt64 sampleOs [68, 68] 9223372036854775807).1 = true ∧
      (RegistryKey.mk 4).GetInt64
        ((RegistryKey.mk 4).SetInt64 sampleOs [68, 68] 9223372036854775807).2 [68, 68]
        = 9223372036854775807) ∧
    (((RegistryKey.mk 4).SetBoolean sampleOs [65, 65] true).1 = true ∧
      (RegistryKey.mk 4).GetBoolean
        ((RegistryKey.mk 4).SetBoolean sampleOs [65, 65] true).2 [65, 65] = true) :=
  ⟨⟨by decide, by decide, by decide,
      (integer_boolean_roundtrip (RegistryKey.mk 4) sampleOs [66, 69]).1 (-2147483648)
        (by decide) (by decide) (by decide)⟩,
    ⟨by decide, by decide, by decide,
      (integer_boolean_roundtrip (RegistryKey.mk 4) sampleOs [68, 68]).2.1 9223372036854775807
        (by decide) (by decide) (by decide)⟩,
    ⟨by decide,
      (integer_boolean_roundtrip (RegistryKey.mk 4) sampleOs [65, 65]).2.2 true (by decide)⟩⟩

/-! ## GetValue -/

/-- Whatever is stored, `GetValue` hands back an object of the base class: the assignments in
its branches do not change the class of `ret`. -/
theorem GetValue_base (self : RegistryKey) (os : Os) (junk : Nat → Nat) (name : List Nat)
    (h : self.m_hKey ≠ 0) : self.GetValue os junk name = some RegistryValue.base := by
  unfold RegistryKey.GetValue
  simp only [h, if_false, RegistryValue.assign]
  repeat' split <;> try rfl

/-- C3, the code at the failing input: the value `x` of `sampleKey` is a stored `REG_DWORD`
with the integer 7 and the value `s` is a stored `REG_SZ`, yet `GetValue` returns for both the
null value of type `NUL`, whose `GetInt32()` is 0 and whose `GetString()` is empty. -/
theorem GetValue_stored_integer_is_null :
    (RegistryKey.mk 4).GetInt32 sampleOs [120] = 7 ∧
    (RegistryKey.mk 4).GetValue sampleOs (fun _ => 0) [120] = some RegistryValue.base ∧
    RegistryValue.base.GetType = Type_.NUL ∧
    RegistryValue.base.IsNull = true ∧
    RegistryValue.base.GetInt32 = 0 ∧
    (RegistryKey.mk 4).GetString sampleOs (fun _ => 0) [115] = [65, 66] ∧
    (RegistryKey.mk 4).GetValue sampleOs (fun _ => 0) [115] = some RegistryValue.base ∧
    RegistryValue.base.GetString = [] := by
  refine ⟨by decide, by decide, rfl, rfl, rfl, by decide, by decide, rfl⟩

/-! ## Delete and HasValue -/

theorem assocFind_assocErase_ne {β : Type} (name other : List Nat) (l : List (List Nat × β))
    (hne : other ≠ name) : assocFind other (assocErase name l) = assocFind other l := by
  induction l with
  | nil => rfl
  | cons e rest ih =>
    obtain ⟨n, c⟩ := e
    by_cases h : n = name
    · subst h
      have h2 : ¬ n = other := fun h3 => hne h3.symm
      simp only [assocErase, assocFind, if_true, if_neg h2, ih]
    · by_cases h2 : n = other
      · subst h2
        simp only [assocErase, assocFind, if_neg h, if_true]
      · simp only [assocErase, assocFind, if_neg h, if_neg h2, ih]

/-- `Delete(name)` when a value of that name exists: one `RegDeleteValue` request, the value is
gone, the child keys are untouched. -/
theorem Delete_value (self : RegistryKey) (os : Os) (n : List Nat) (k : Key) (v : RegValue)
    (hk : os.keys self.m_hKey = some k) (hv : assocFind (c_str n) k.values = some v) :
    self.Delete os n =
      (true, { os with
        keys := Function.update os.keys self.m_hKey
          (some (Key.mk (assocErase (c_str n) k.values) k.subkeys))
        calls := os.calls ++ [OsCall.RegDeleteValue self.m_hKey (c_str n)] }) := by
  simp [RegistryKey.Delete, RegDeleteValue, hk, hv]

/-- `Delete(name)` when no value but a child key of that name exists: the value request fails,
the tree request follows and removes the child. -/
theorem Delete_subkey (self : RegistryKey) (os : Os) (n : List Nat) (k c : Key)
    (hk : os.keys self.m_hKey = some k) (hv : assocFind (c_str n) k.values = none)
    (hc : assocFind (c_str n) k.subkeys = some c) :
    self.Delete os n =
      (true, { os with
        keys := Function.update os.keys self.m_hKey
          (some (Key.mk k.values (assocErase (c_str n) k.subkeys)))
        calls := os.calls ++ [OsCall.RegDeleteValue self.m_hKey (c_str n),
          OsCall.RegDeleteTree self.m_hKey (c_str n)] }) := by
  simp [RegistryKey.Delete, RegDeleteValue, RegDeleteTree, hk, hv, hc, ERROR_FILE_NOT_FOUND,
    ERROR_SUCCESS]

/-- `Delete(name)` when the name is neither a value nor a child key. -/
theorem Delete_neither (self : RegistryKey) (os : Os) (n : List Nat) (k : Key)
    (hk : os.keys self.m_hKey = some k) (hv : assocFind (c_str n) k.values = none)
    (hc : assocFind (c_str n) k.subkeys = none) :
    self.Delete os n =
      (false, { os with
        calls := os.calls ++ [OsCall.RegDeleteValue self.m_hKey (c_str n),
          OsCall.RegDeleteTree self.m_hKey (c_str n)] }) := by
  simp [RegistryKey.Delete, RegDeleteValue, RegDeleteTree, hk, hv, hc, ERROR_FILE_NOT_FOUND,
    ERROR_SUCCESS]

/-- C4: on a key `k`, `Delete(n)` first asks for the value `n` to be deleted.  If the value
exists the result is `true`, the only request made is that `RegDeleteValue`, the value is gone
and all child keys (one called `n` included) are unchanged.  If no value but a child key `n`
exists, the result is `true`, the `RegDeleteTree` request follows the failed value request, the
child `n` is gone with everything below it, and the values and the other children are
unchanged.  If `n` names neither, the result is `false` and values and child keys are
unchanged. -/
theorem Delete_spec (self : RegistryKey) (os : Os) (n : List Nat) (k : Key)
    (hk : os.keys self.m_hKey = some k) :
    (∀ v, assocFind (c_str n) k.values = some v →
      (self.Delete os n).1 = true ∧
      (self.Delete os n).2.calls = os.calls ++ [OsCall.RegDeleteValue self.m_hKey (c_str n)] ∧
      ∃ k', (self.Delete os n).2.keys self.m_hKey = some k' ∧
        assocFind (c_str n) k'.values = none ∧
        (∀ m, m ≠ c_str n → assocFind m k'.values = assocFind m k.values) ∧
        k'.subkeys = k.subkeys) ∧
    (assocFind (c_str n) k.values = none → ∀ c, assocFind (c_str n) k.subkeys = some c →
      (self.Delete os n).1 = true ∧
      (self.Delete os n).2.calls = os.calls ++
        [OsCall.RegDeleteValue self.m_hKey (c_str n), OsCall.RegDeleteTree self.m_hKey (c_str n)] ∧
      ∃ k', (self.Delete os n).2.keys self.m_hKey = some k' ∧
        k'.values = k.values ∧ assocFind (c_str n) k'.subkeys = none ∧
        ∀ m, m ≠ c_str n → assocFind m k'.subkeys = assocFind m k.subkeys) ∧
    (assocFind (c_str n) k.values = none → assocFind (c_str n) k.subkeys = none →
      (self.Delete os n).1 = false ∧ (self.Delete os n).2.keys = os.keys) := by
  refine ⟨?_, ?_, ?_⟩
  · intro v hv
    rw [Delete_value self os n k v hk hv]
    refine ⟨rfl, rfl, _, Function.update_same _ _ _, ?_, ?_, rfl⟩
    · exact assocFind_assocErase _ _
    · intro m hm
      exact assocFind_assocErase_ne _ _ _ hm
  · intro hv c hc
    rw [Delete_subkey self os n k c hk hv hc]
    refine ⟨rfl, rfl, _, Function.update_same _ _ _, rfl, ?_, ?_⟩
    · exact assocFind_assocErase _ _
    · intro m hm
      exact assocFind_assocErase_ne _ _ _ hm
  · intro hv hc
    rw [Delete_neither self os n k hk hv hc]
    exact ⟨rfl, rfl⟩

theorem Delete_spec_witness :
    sampleOs.keys (RegistryKey.mk 4).m_hKey = some sampleKey ∧
    (assocFind (c_str [120]) sampleKey.values = some ⟨REG_DWORD, [7, 0, 0, 0]⟩ ∧
      ((RegistryKey.mk 4).Delete sampleOs [120]).1 = true ∧
      ((RegistryKey.mk 4).Delete sampleOs [120]).2.calls = sampleOs.calls ++
        [OsCall.RegDeleteValue (RegistryKey.mk 4).m_hKey (c_str [120])] ∧
      ∃ k', ((RegistryKey.mk 4).Delete sampleOs [120]).2.keys (RegistryKey.mk 4).m_hKey
          = some k' ∧
        assocFind (c_str [120]) k'.values = none ∧
        (∀ m, m ≠ c_str [120] → assocFind m k'.values = assocFind m sampleKey.values) ∧
        k'.subkeys = sampleKey.subkeys) ∧
    (assocFind (c_str [99]) sampleKey.values = none ∧
      assocFind (c_str [99]) sampleKey.subkeys
        = some (Key.mk [([118], ⟨REG_SZ, []⟩)] [([100], Key.mk [] [])]) ∧
      ((RegistryKey.mk 4).Delete sampleOs [99]).1 = true ∧
      ((RegistryKey.mk 4).Delete sampleOs [99]).2.calls = sampleOs.calls ++
        [OsCall.RegDeleteValue (RegistryKey.mk 4).m_hKey (c_str [99]),
          OsCall.RegDeleteTree (RegistryKey.mk 4).m_hKey (c_str [99])] ∧
      ∃ k', ((RegistryKey.mk 4).Delete sampleOs [99]).2.keys (RegistryKey.mk 4).m_hKey
          = some k' ∧
        k'.values = sampleKey.values ∧ assocFind (c_str [99]) k'.subkeys = none ∧
        ∀ m, m ≠ c_str [99] → assocFind m k'.subkeys = assocFind m sampleKey.subkeys) ∧
    (assocFind (c_str [122]) sampleKey.values = none ∧
      assocFind (c_str [122]) sampleKey.subkeys = none ∧
      ((RegistryKey.mk 4).Delete sampleOs [122]).1 = false ∧
      ((RegistryKey.mk 4).Delete sampleOs [122]).2.keys = sampleOs.keys) :=
  ⟨rfl,
    ⟨rfl, (Delete_spec (RegistryKey.mk 4) sampleOs [120] sampleKey rfl).1 _ rfl⟩,
    ⟨rfl, rfl, (Delete_spec (RegistryKey.mk 4) sampleOs [99] sampleKey rfl).2.1 rfl _ rfl⟩,
    ⟨rfl, rfl, (Delete_spec (RegistryKey.mk 4) sampleOs [122] sampleKey rfl).2.2 rfl rfl⟩⟩

theorem HasValue_eq (self : RegistryKey) (os : Os) (n : List Nat) (k : Key)
    (hk : os.keys self.m_hKey = some k) :
    self.HasValue os n = (assocFind (c_str n) k.values).isSome := by
  unfold RegistryKey.HasValue RegQueryValueEx
  simp only [hk]
  cases assocFind (c_str n) k.values <;> simp [ERROR_FILE_NOT_FOUND, ERROR_SUCCESS]

/-- Every typed write goes through one `RegSetValueEx` request under the C string of the
name. -/
theorem write_eq (self : RegistryKey) (os : Os) (n : List Nat) (w : TypedWrite) :
    ∃ ty mem cb, self.write os n w =
      (decide ((RegSetValueEx os self.m_hKey (c_str n) ty mem cb).1 = ERROR_SUCCESS),
        (RegSetValueEx os self.m_hKey (c_str n) ty mem cb).2) := by
  cases w with
  | boolean b => exact ⟨_, _, _, rfl⟩
  | int32 v => exact ⟨_, _, _, rfl⟩
  | int64 v => exact ⟨_, _, _, rfl⟩
  | string s => exact ⟨_, _, _, rfl⟩
  | expandString s => exact ⟨_, _, _, rfl⟩

/-- After a successful typed write the handle denotes a key that holds a value of that name. -/
theorem write_stores (self : RegistryKey) (os : Os) (n : List Nat) (w : TypedWrite)
    (hok : (self.write os n w).1 = true) :
    ∃ k v, (self.write os n w).2.keys self.m_hKey = some k ∧
      assocFind (c_str n) k.values = some v := by
  obtain ⟨ty, mem, cb, hw⟩ := write_eq self os n w
  rw [hw] at hok ⊢
  have hok' : (RegSetValueEx os self.m_hKey (c_str n) ty mem cb).1 = ERROR_SUCCESS := by
    simpa using hok
  obtain ⟨k, hk⟩ := RegSetValueEx_success _ _ _ _ _ _ hok'
  exact ⟨_, _, (RegSetValueEx_valid os self.m_hKey (c_str n) ty mem cb k hk).2,
    assocFind_assocSet _ _ _⟩

/-- C5: on a key without a value named `n`, `HasValue(n)` is `false`; after any successful typed
write of `n` (boolean, 32-bit, 64-bit, text or expandable text, whatever the payload) it is
`true`; after a successful `Delete(n)` that follows, it is `false` again. -/
theorem HasValue_lifecycle (self : RegistryKey) (os : Os) (n : List Nat) (k : Key)
    (hk : os.keys self.m_hKey = some k) (hno : assocFind (c_str n) k.values = none) :
    self.HasValue os n = false ∧
    ∀ w : TypedWrite, (self.write os n w).1 = true →
      self.HasValue (self.write os n w).2 n = true ∧
      ((self.Delete (self.write os n w).2 n).1 = true →
        self.HasValue (self.Delete (self.write os n w).2 n).2 n = false) := by
  constructor
  · rw [HasValue_eq self os n k hk, hno]
    rfl
  · intro w hok
    obtain ⟨k1, v, hk1, hv⟩ := write_stores self os n w hok
    constructor
    · rw [HasValue_eq self _ n k1 hk1, hv]
      rfl
    · intro _
      rw [Delete_value self _ n k1 v hk1 hv]
      rw [HasValue_eq self _ n _ (Function.update_same _ _ _)]
      simp only [Key.values, assocFind_assocErase]
      rfl

theorem HasValue_lifecycle_witness :
    sampleOs.keys (RegistryKey.mk 4).m_hKey = some sampleKey ∧
    assocFind (c_str [122]) sampleKey.values = none ∧
    (RegistryKey.mk 4).HasValue sampleOs [122] = false ∧
    ((RegistryKey.mk 4).write sampleOs [122] (TypedWrite.string [])).1 = true ∧
    (RegistryKey.mk 4).HasValue
      ((RegistryKey.mk 4).write sampleOs [122] (TypedWrite.string [])).2 [122] = true ∧
    ((RegistryKey.mk 4).Delete
      ((RegistryKey.mk 4).write sampleOs [122] (TypedWrite.string [])).2 [122]).1 = true ∧
    (RegistryKey.mk 4).HasValue ((RegistryKey.mk 4).Delete
      ((RegistryKey.mk 4).write sampleOs [122] (TypedWrite.string [])).2 [122]).2 [122]
      = false :=
  ⟨rfl, rfl, (HasValue_lifecycle (RegistryKey.mk 4) sampleOs [122] sampleKey rfl rfl).1,
    by decide,
    ((HasValue_lifecycle (RegistryKey.mk 4) sampleOs [122] sampleKey rfl rfl).2
      (TypedWrite.string []) (by decide)).1,
    by decide,
    ((HasValue_lifecycle (RegistryKey.mk 4) sampleOs [122] sampleKey rfl rfl).2
      (TypedWrite.string []) (by decide)).2 (by decide)⟩

/-! ## Arguments that the header does not check, and failures of Open and Create -/

/-- `Open` and `Create` yield a wrapper exactly when the system reports success; every other
status gives the same empty result. -/
theorem Open_eq_none_iff (self : RegistryKey) (os : Os) (path : List Nat) (sam : Nat) :
    (self.Open os path sam = none ↔
      (RegOpenKeyEx os self.m_hKey (c_str path) sam).lStatus ≠ ERROR_SUCCESS) ∧
    (self.Create os path = none ↔
      (RegCreateKeyEx os self.m_hKey (c_str path)).lStatus ≠ ERROR_SUCCESS) := by
  unfold RegistryKey.Open RegistryKey.Create
  constructor
  · by_cases h : (RegOpenKeyEx os self.m_hKey (c_str path) sam).lStatus = ERROR_SUCCESS <;>
      simp [h]
  · by_cases h : (RegCreateKeyEx os self.m_hKey (c_str path)).lStatus = ERROR_SUCCESS <;>
      simp [h]

/-- C6, the code at the failing inputs: a wrapper of the null handle is constructed like any
other and forwards a write to the system with that handle; `Open`, `Create`, `Exists` and
`HasValue` with the empty string forward it to the system and return what the system answers
(here: a key, a key, `true` after closing the probe handle 8, and `true`). -/
theorem empty_name_and_null_handle_are_forwarded :
    ((RegistryKey.mk 0).SetInt32 sampleOs [120] 1).1 = false ∧
    ((RegistryKey.mk 0).SetInt32 sampleOs [120] 1).2.calls
      = [OsCall.RegSetValueEx 0 [120] REG_DWORD 4] ∧
    (RegistryKey.mk 4).Open sampleOsEmptyPath [] KEY_READ = some (RegistryKey.mk 8) ∧
    (RegistryKey.mk 4).Create sampleOsEmptyPath [] = some (RegistryKey.mk 12) ∧
    ((RegistryKey.mk 4).Exists sampleOsEmptyPath []).1 = true ∧
    ((RegistryKey.mk 4).Exists sampleOsEmptyPath []).2.calls = [OsCall.RegCloseKey 8] ∧
    (RegistryKey.mk 4).HasValue sampleOsEmptyPath [] = true := by
  refine ⟨by decide, by decide, by decide, by decide, by decide, by decide, by decide⟩

/-- C7, the code at the failing inputs: the system answers "not found" to the open request and
"access denied" to the create request; `Open` and `Create` both return the empty pointer, which
carries no status, and `Open` with the empty path returns the very same result. -/
theorem Open_and_Create_failures_look_alike :
    (RegOpenKeyEx sampleOs 4 (c_str [78, 79]) KEY_READ).lStatus = ERROR_FILE_NOT_FOUND ∧
    (RegistryKey.mk 4).Open sampleOs [78, 79] KEY_READ = none ∧
    (RegCreateKeyEx sampleOs 4 (c_str [67])).lStatus = ERROR_ACCESS_DENIED ∧
    (RegistryKey.mk 4).Create sampleOs [67] = none ∧
    (RegistryKey.mk 4).Open sampleOs [] KEY_READ = none := by
  refine ⟨by decide, by decide, by decide, by decide, by decide⟩

/-! ## Typed getters on a value of another type -/

/-- What `GetBoolean` does with a value whose type is not `REG_DWORD`. -/
theorem GetBoolean_other_type (self : RegistryKey) (os : Os) (n : List Nat) (k : Key)
    (v : RegValue) (hk : os.keys self.m_hKey = some k)
    (hv : assocFind (c_str n) k.values = some v) (hty : v.dwType ≠ REG_DWORD) :
    self.GetBoolean os n = false := by
  unfold RegistryKey.GetBoolean RegQueryValueEx
  simp only [hk, hv]
  split <;> simp_all

/-- What `GetString` does with a value that is neither `REG_SZ` nor `REG_EXPAND_SZ`. -/
theorem GetString_other_type (self : RegistryKey) (os : Os) (junk : Nat → Nat) (n : List Nat)
    (k : Key) (v : RegValue) (hk : os.keys self.m_hKey = some k)
    (hv : assocFind (c_str n) k.values = some v)
    (hty : v.dwType ≠ REG_SZ ∧ v.dwType ≠ REG_EXPAND_SZ) :
    self.GetString os junk n = [] := by
  unfold RegistryKey.GetString RegQueryValueEx
  simp only [hk, hv]
  simp [hty.1, hty.2]

/-- C8, the code at the failing input: the value `s` of `sampleKey` has type `REG_SZ` and holds
the four bytes of the text "AB"; `GetInt32` and `GetInt64` return those bytes read as an
integer, 4325441, and `GetInt64` returns 7 for the `REG_DWORD` value `x`.  `GetBoolean` and
`GetString` do return their defaults on the value of the other type. -/
theorem GetInt32_reads_other_types :
    assocFind (c_str [115]) sampleKey.values = some ⟨REG_SZ, [65, 0, 66, 0]⟩ ∧
    (RegistryKey.mk 4).GetInt32 sampleOs [115] = 4325441 ∧
    (RegistryKey.mk 4).GetInt64 sampleOs [115] = 4325441 ∧
    (RegistryKey.mk 4).GetInt64 sampleOs [120] = 7 ∧
    (RegistryKey.mk 4).GetBoolean sampleOs [115] = false ∧
    (RegistryKey.mk 4).GetString sampleOs (fun _ => 0) [120] = [] := by
  refine ⟨by decide, by decide, by decide, by decide, by decide, by decide⟩

/-! ## The destructor -/

theorem closesHandle_iff (self : RegistryKey) :
    self.closesHandle = true ↔ (self.m_hKey ≠ 0 ∧ ¬ reservedHandle self.m_hKey) := by
  unfold RegistryKey.closesHandle reservedHandle
  simp only [bne_iff_ne, ne_eq, Bool.and_eq_true, Bool.not_eq_true', Bool.and_eq_false_iff,
    decide_eq_true_eq, decide_eq_false_iff_not, ge_iff_le]
  constructor
  · rintro ⟨h0, h | h⟩
    · exact ⟨h0, fun hr => h hr.1⟩
    · exact ⟨h0, fun hr => h hr.2⟩
  · rintro ⟨h0, hr⟩
    refine ⟨h0, ?_⟩
    by_cases h1 : HKEY_CLASSES_ROOT ≤ self.m_hKey
    · exact Or.inr (fun h2 => hr ⟨h1, h2⟩)
    · exact Or.inl h1

theorem RegCloseKey_calls (os : Os) (h : Nat) :
    (RegCloseKey os h).2.calls = os.calls ++ [OsCall.RegCloseKey h] := by
  unfold RegCloseKey
  cases os.keys h <;> rfl

theorem RegCloseKey_keys (os : Os) (h : Nat) : (RegCloseKey os h).2.keys h = none := by
  unfold RegCloseKey
  cases hk : os.keys h with
  | none => exact hk
  | some k => exact Function.update_same _ _ _

theorem RegCloseKey_keys_other (os : Os) (h h' : Nat) (hne : h' ≠ h) :
    (RegCloseKey os h).2.keys h' = os.keys h' := by
  unfold RegCloseKey
  cases hk : os.keys h with
  | none => rfl
  | some k => exact Function.update_noteq hne _ _

/-- The destructor on a handle it closes: one `RegCloseKey` request for that handle, after which
the handle denotes nothing and every other handle denotes what it did. -/
theorem destructor_closes (k : RegistryKey) (os : Os) (h0 : k.m_hKey ≠ 0)
    (hr : ¬ reservedHandle k.m_hKey) :
    k.destructor os = (RegCloseKey os k.m_hKey).2 ∧
    (k.destructor os).calls = os.calls ++ [OsCall.RegCloseKey k.m_hKey] ∧
    (k.destructor os).keys k.m_hKey = none ∧
    (∀ h', h' ≠ k.m_hKey → (k.destructor os).keys h' = os.keys h') := by
  have hc : k.closesHandle = true := (closesHandle_iff k).2 ⟨h0, hr⟩
  have hd : k.destructor os = (RegCloseKey os k.m_hKey).2 := by
    simp only [RegistryKey.destructor, hc, if_true]
  rw [hd]
  exact ⟨rfl, RegCloseKey_calls os _, RegCloseKey_keys os _,
    fun h' hne => RegCloseKey_keys_other os _ h' hne⟩

/-- The destructor on the null handle or a handle of the reserved range: nothing happens. -/
theorem destructor_keeps (k : RegistryKey) (os : Os)
    (h : k.m_hKey = 0 ∨ reservedHandle k.m_hKey) : k.destructor os = os := by
  have hc : ¬ k.closesHandle = true := by
    rw [closesHandle_iff]
    rintro ⟨h0, hr⟩
    rcases h with h | h
    · exact h0 h
    · exact hr h
  have hc' : k.closesHandle = false := by simpa using hc
  simp [RegistryKey.destructor, hc']

/-- C9, as amended: the destructor decides to close exactly for the non-null handles outside
the range `HKEY_CLASSES_ROOT..HKEY_CURRENT_USER_LOCAL_SETTINGS`.  For such a handle it issues
exactly one `RegCloseKey` on it, after which the handle is released (it denotes nothing, and
every other handle is untouched); for the null handle or a handle in the range it does nothing,
in particular for the five roots.  `Open` and `Create`, when the system reports success, wrap
exactly the handle the system returned; the wrapper releases that handle exactly once when it
is non-null and outside the range, and does not release it when it is null or lies in the
range (a predefined handle that the system hands back is not released). -/
theorem destructor_spec (self : RegistryKey) (os : Os) :
    (self.closesHandle = true ↔ (self.m_hKey ≠ 0 ∧ ¬ reservedHandle self.m_hKey)) ∧
    (self.m_hKey ≠ 0 → ¬ reservedHandle self.m_hKey →
      self.destructor os = (RegCloseKey os self.m_hKey).2 ∧
      (self.destructor os).calls = os.calls ++ [OsCall.RegCloseKey self.m_hKey] ∧
      (self.destructor os).keys self.m_hKey = none ∧
      (∀ h', h' ≠ self.m_hKey → (self.destructor os).keys h' = os.keys h')) ∧
    (self.m_hKey = 0 ∨ reservedHandle self.m_hKey → self.destructor os = os) ∧
    (∀ root ∈ [ClassesRoot, CurrentUser, LocalMachine, Users, CurrentConfig],
      root.destructor os = os) ∧
    (∀ path sam, (RegOpenKeyEx os self.m_hKey (c_str path) sam).lStatus = ERROR_SUCCESS →
      self.Open os path sam
        = some (RegistryKey.mk (RegOpenKeyEx os self.m_hKey (c_str path) sam).hKey) ∧
      ((RegOpenKeyEx os self.m_hKey (c_str path) sam).hKey ≠ 0 →
        ¬ reservedHandle (RegOpenKeyEx os self.m_hKey (c_str path) sam).hKey → ∀ os' : Os,
        ((RegistryKey.mk (RegOpenKeyEx os self.m_hKey (c_str path) sam).hKey).destructor
            os').calls
          = os'.calls ++ [OsCall.RegCloseKey (RegOpenKeyEx os self.m_hKey (c_str path) sam).hKey] ∧
        ((RegistryKey.mk (RegOpenKeyEx os self.m_hKey (c_str path) sam).hKey).destructor
            os').keys (RegOpenKeyEx os self.m_hKey (c_str path) sam).hKey = none) ∧
      ((RegOpenKeyEx os self.m_hKey (c_str path) sam).hKey = 0 ∨
          reservedHandle (RegOpenKeyEx os self.m_hKey (c_str path) sam).hKey → ∀ os' : Os,
        (RegistryKey.mk (RegOpenKeyEx os self.m_hKey (c_str path) sam).hKey).destructor os'
          = os')) ∧
    (∀ path, (RegCreateKeyEx os self.m_hKey (c_str path)).lStatus = ERROR_SUCCESS →
      self.Create os path
        = some (RegistryKey.mk (RegCreateKeyEx os self.m_hKey (c_str path)).hKey) ∧
      ((RegCreateKeyEx os self.m_hKey (c_str path)).hKey ≠ 0 →
        ¬ reservedHandle (RegCreateKeyEx os self.m_hKey (c_str path)).hKey → ∀ os' : Os,
        ((RegistryKey.mk (RegCreateKeyEx os self.m_hKey (c_str path)).hKey).destructor os').calls
          = os'.calls ++ [OsCall.RegCloseKey (RegCreateKeyEx os self.m_hKey (c_str path)).hKey] ∧
        ((RegistryKey.mk (RegCreateKeyEx os self.m_hKey (c_str path)).hKey).destructor os').keys
          (RegCreateKeyEx os self.m_hKey (c_str path)).hKey = none) ∧
      ((RegCreateKeyEx os self.m_hKey (c_str path)).hKey = 0 ∨
          reservedHandle (RegCreateKeyEx os self.m_hKey (c_str path)).hKey → ∀ os' : Os,
        (RegistryKey.mk (RegCreateKeyEx os self.m_hKey (c_str path)).hKey).destructor os'
          = os')) := by
  refine ⟨closesHandle_iff self, destructor_closes self os, destructor_keeps self os, ?_, ?_, ?_⟩
  · intro root hroot
    apply destructor_keeps
    right
    simp only [List.mem_cons, List.mem_singleton, List.not_mem_nil, or_false] at hroot
    rcases hroot with h | h | h | h | h <;> subst h <;> decide
  · intro path sam hok
    refine ⟨?_, ?_, ?_⟩
    · simp only [RegistryKey.Open, hok, if_true]
    · intro h0 hr os'
      have h := destructor_closes (RegistryKey.mk _) os' h0 hr
      exact ⟨h.2.1, h.2.2.1⟩
    · intro h os'
      exact destructor_keeps (RegistryKey.mk _) os' h
  · intro path hok
    refine ⟨?_, ?_, ?_⟩
    · simp only [RegistryKey.Create, hok, if_true]
    · intro h0 hr os'
      have h := destructor_closes (RegistryKey.mk _) os' h0 hr
      exact ⟨h.2.1, h.2.2.1⟩
    · intro h os'
      exact destructor_keeps (RegistryKey.mk _) os' h

theorem destructor_spec_witness :
    ((RegistryKey.mk 8).m_hKey ≠ 0 ∧ ¬ reservedHandle (RegistryKey.mk 8).m_hKey ∧
      (RegistryKey.mk 8).destructor sampleOsRoots
        = (RegCloseKey sampleOsRoots (RegistryKey.mk 8).m_hKey).2 ∧
      ((RegistryKey.mk 8).destructor sampleOsRoots).calls
        = sampleOsRoots.calls ++ [OsCall.RegCloseKey (RegistryKey.mk 8).m_hKey] ∧
      ((RegistryKey.mk 8).destructor sampleOsRoots).keys (RegistryKey.mk 8).m_hKey = none ∧
      (∀ h', h' ≠ (RegistryKey.mk 8).m_hKey →
        ((RegistryKey.mk 8).destructor sampleOsRoots).keys h' = sampleOsRoots.keys h')) ∧
    (((RegistryKey.mk 0).m_hKey = 0 ∨ reservedHandle (RegistryKey.mk 0).m_hKey) ∧
      (RegistryKey.mk 0).destructor sampleOsRoots = sampleOsRoots) ∧
    ((CurrentUser.m_hKey = 0 ∨ reservedHandle CurrentUser.m_hKey) ∧
      CurrentUser.destructor sampleOsRoots = sampleOsRoots) ∧
    (LocalMachine ∈ [ClassesRoot, CurrentUser, LocalMachine, Users, CurrentConfig] ∧
      LocalMachine.destructor sampleOsRoots = sampleOsRoots) ∧
    ((RegOpenKeyEx sampleOsRoots LocalMachine.m_hKey (c_str [99]) KEY_READ).lStatus
        = ERROR_SUCCESS ∧
      (RegOpenKeyEx sampleOsRoots LocalMachine.m_hKey (c_str [99]) KEY_READ).hKey ≠ 0 ∧
      ¬ reservedHandle (RegOpenKeyEx sampleOsRoots LocalMachine.m_hKey (c_str [99]) KEY_READ).hKey ∧
      LocalMachine.Open sampleOsRoots [99] KEY_READ = some (RegistryKey.mk 8) ∧
      ((RegistryKey.mk 8).destructor sampleOsRoots).calls
        = sampleOsRoots.calls ++ [OsCall.RegCloseKey 8] ∧
      ((RegistryKey.mk 8).destructor sampleOsRoots).keys 8 = none) ∧
    ((RegOpenKeyEx sampleOsRoots LocalMachine.m_hKey (c_str []) KEY_READ).lStatus
        = ERROR_SUCCESS ∧
      ((RegOpenKeyEx sampleOsRoots LocalMachine.m_hKey (c_str []) KEY_READ).hKey = 0 ∨
        reservedHandle (RegOpenKeyEx sampleOsRoots LocalMachine.m_hKey (c_str []) KEY_READ).hKey) ∧
      LocalMachine.Open sampleOsRoots [] KEY_READ = some (RegistryKey.mk HKEY_LOCAL_MACHINE) ∧
      (RegistryKey.mk HKEY_LOCAL_MACHINE).destructor sampleOsRoots = sampleOsRoots) ∧
    ((RegCreateKeyEx sampleOsRoots LocalMachine.m_hKey (c_str [99])).lStatus = ERROR_SUCCESS ∧
      (RegCreateKeyEx sampleOsRoots LocalMachine.m_hKey (c_str [99])).hKey ≠ 0 ∧
      ¬ reservedHandle (RegCreateKeyEx sampleOsRoots LocalMachine.m_hKey (c_str [99])).hKey ∧
      LocalMachine.Create sampleOsRoots [99] = some (RegistryKey.mk 12) ∧
      ((RegistryKey.mk 12).destructor sampleOsRoots).calls
        = sampleOsRoots.calls ++ [OsCall.RegCloseKey 12] ∧
      ((RegistryKey.mk 12).destructor sampleOsRoots).keys 12 = none) :=
  ⟨⟨by decide, by decide,
      (destructor_spec (RegistryKey.mk 8) sampleOsRoots).2.1 (by decide) (by decide)⟩,
    ⟨Or.inl rfl, (destructor_spec (RegistryKey.mk 0) sampleOsRoots).2.2.1 (Or.inl rfl)⟩,
    ⟨Or.inr (by decide),
      (destructor_spec CurrentUser sampleOsRoots).2.2.1 (Or.inr (by decide))⟩,
    ⟨by decide,
      (destructor_spec LocalMachine sampleOsRoots).2.2.2.1 LocalMachine (by decide)⟩,
    ⟨by decide, by decide, by decide,
      ((destructor_spec LocalMachine sampleOsRoots).2.2.2.2.1 [99] KEY_READ (by decide)).1,
      (((destructor_spec LocalMachine sampleOsRoots).2.2.2.2.1 [99] KEY_READ (by decide)).2.1
        (by decide) (by decide) sampleOsRoots).1,
      (((destructor_spec LocalMachine sampleOsRoots).2.2.2.2.1 [99] KEY_READ (by decide)).2.1
        (by decide) (by decide) sampleOsRoots).2⟩,
    ⟨by decide, Or.inr (by decide),
      ((destructor_spec LocalMachine sampleOsRoots).2.2.2.2.1 [] KEY_READ (by decide)).1,
      ((destructor_spec LocalMachine sampleOsRoots).2.2.2.2.1 [] KEY_READ (by decide)).2.2
        (Or.inr (by decide)) sampleOsRoots⟩,
    ⟨by decide, by decide, by decide,
      ((destructor_spec LocalMachine sampleOsRoots).2.2.2.2.2 [99] (by decide)).1,
      (((destructor_spec LocalMachine sampleOsRoots).2.2.2.2.2 [99] (by decide)).2.1
        (by decide) (by decide) sampleOsRoots).1,
      (((destructor_spec LocalMachine sampleOsRoots).2.2.2.2.2 [99] (by decide)).2.1
        (by decide) (by decide) sampleOsRoots).2⟩⟩

/-- C9 as stated fails in its last clause: `LocalMachine->Open(L"")` succeeds and the system
hands the predefined handle `HKEY_LOCAL_MACHINE` itself back; the wrapper `Open` returns holds
that handle, and its destructor issues no `RegCloseKey` (the journal stays empty) and leaves
the handle open, so a handle returned by a successful `Open` is not released by its wrapper. -/
theorem Open_root_handle_is_not_released :
    (RegOpenKeyEx sampleOsRoots LocalMachine.m_hKey (c_str []) KEY_READ).lStatus
      = ERROR_SUCCESS ∧
    LocalMachine.Open sampleOsRoots [] KEY_READ = some (RegistryKey.mk HKEY_LOCAL_MACHINE) ∧
    (RegistryKey.mk HKEY_LOCAL_MACHINE).closesHandle = false ∧
    ((RegistryKey.mk HKEY_LOCAL_MACHINE).destructor sampleOsRoots).calls = [] ∧
    OsCall.RegCloseKey HKEY_LOCAL_MACHINE
      ∉ ((RegistryKey.mk HKEY_LOCAL_MACHINE).destructor sampleOsRoots).calls ∧
    (((RegistryKey.mk HKEY_LOCAL_MACHINE).destructor sampleOsRoots).keys
      HKEY_LOCAL_MACHINE).isSome = true := by
  refine ⟨by decide, by decide, by decide, by decide, by decide, by decide⟩

/-! ## GetSubKeys -/

theorem GetSubKeys_body_eq (self : RegistryKey) (os : Os) (k : Key)
    (hk : os.keys self.m_hKey = some k) (acc : List (List Nat)) (i : Nat)
    (e : List Nat × Key) (he : k.subkeys.get? i = some e) :
    RegistryKey.GetSubKeys.body self os acc i =
      acc ++ ([e.1].filter (fun nm => decide (nm.length + 1 ≤ 255))) := by
  unfold RegistryKey.GetSubKeys.body RegEnumKeyEx
  simp only [hk, he]
  by_cases hlen : e.1.length + 1 ≤ 255
  · have htake : (e.1 ++ [0]).take e.1.length = e.1 := List.take_left' rfl
    simp only [hlen, if_true, htake, List.filter_cons, decide_True, List.filter_nil]
  · have hne : ERROR_MORE_DATA ≠ ERROR_SUCCESS := by decide
    simp only [hlen, if_false, hne, List.filter_cons, decide_False, List.filter_nil,
      List.append_nil]
    simp

theorem GetSubKeys_loop_eq (self : RegistryKey) (os : Os) (k : Key)
    (hk : os.keys self.m_hKey = some k) (m : Nat) (hm : m ≤ k.subkeys.length) :
    (List.range m).foldl (RegistryKey.GetSubKeys.body self os) [] =
      ((k.subkeys.take m).map Prod.fst).filter (fun nm => decide (nm.length + 1 ≤ 255)) := by
  induction m with
  | zero => simp
  | succ m ih =>
    have hlt : m < k.subkeys.length := hm
    have he : k.subkeys.get? m = some (k.subkeys.get ⟨m, hlt⟩) := List.get?_eq_get hlt
    rw [List.range_succ, List.foldl_append, ih (Nat.le_of_lt hlt)]
    simp only [List.foldl_cons, List.foldl_nil]
    have he' : k.subkeys[m]? = some (k.subkeys.get ⟨m, hlt⟩) := by
      rw [← List.get?_eq_getElem?]
      exact he
    rw [GetSubKeys_body_eq self os k hk _ m _ he, List.take_succ, he']
    simp only [Option.toList, List.map_append, List.filter_append, List.map_cons, List.map_nil]

/-- What `GetSubKeys` returns on a key: the names of the children that fit, terminator included,
into the 255-character buffer, in enumeration order. -/
theorem GetSubKeys_eq (self : RegistryKey) (os : Os) (k : Key)
    (hk : os.keys self.m_hKey = some k) :
    self.GetSubKeys os =
      (k.subkeys.map Prod.fst).filter (fun nm => decide (nm.length + 1 ≤ 255)) := by
  unfold RegistryKey.GetSubKeys RegQueryInfoKey
  simp only [hk, true_and]
  by_cases h0 : k.subkeys.length > 0
  · simp only [h0, if_true]
    rw [GetSubKeys_loop_eq self os k hk _ (le_refl _), List.take_length]
  · have hnil : k.subkeys = [] := List.length_eq_zero.mp (by omega)
    simp [hnil]

set_option maxRecDepth 100000 in
/-- C10, the code at the failing input: handle 4 of `sampleOsLongChild` denotes a key with two
children, the first with a name of 255 characters; the info query succeeds and reports both,
`RegEnumKeyEx` refuses the first because the 255-character buffer has no room for the
terminator, and `GetSubKeys` returns only the second name. -/
theorem GetSubKeys_omits_longest_name :
    RegQueryInfoKey sampleOsLongChild 4 = (ERROR_SUCCESS, 2, 255) ∧
    (RegEnumKeyEx sampleOsLongChild 4 0 255).1 = ERROR_MORE_DATA ∧
    (RegistryKey.mk 4).GetSubKeys sampleOsLongChild = [[98]] := by
  refine ⟨by decide, by decide, by decide⟩

/-! ## GetString and the terminator -/

theorem get?_last_eq_getLast? (s : List Nat) : s.get? (s.length - 1) = s.getLast? := by
  rw [List.getLast?_eq_getElem?, List.get?_eq_getElem?]

/-- What `GetString` makes of a stored text of at least one wide character: the characters
before the first NUL when the last character is NUL, and all characters otherwise. -/
theorem stringOfData_text (s : List Nat) (hwf : ∀ c ∈ s, c < 65536) (hk : 1 ≤ s.length) :
    stringOfData (wstringBytes s) = if s.getLast? = some 0 then c_str s else s := by
  have hhalf : 2 * s.length / 2 = s.length := by omega
  have htake : (wstringBytes s).take (2 * s.length) = wstringBytes s :=
    List.take_of_length_le (by rw [length_wstringBytes])
  have hbig : 2 * s.length > 1 := by omega
  simp only [stringOfData, length_wstringBytes, hhalf, htake, toWChars_wstringBytes s hwf,
    get?_last_eq_getLast?, List.take_length, hbig, if_true]

/-- A text that ends in a NUL and has no NUL before it: the C string is the text without its
last character. -/
theorem c_str_of_single_terminator (s : List Nat) (hlast : s.getLast? = some 0)
    (hnul : 0 ∉ s.dropLast) : c_str s = s.dropLast := by
  have hs : s.dropLast ++ [0] = s := List.dropLast_append_getLast? 0 (by simp [hlast])
  have hall : ∀ a ∈ s.dropLast, (fun c : Nat => c != 0) a = true := by
    intro a ha
    have hne : a ≠ 0 := fun h => hnul (h ▸ ha)
    simpa using hne
  unfold c_str
  conv_lhs => rw [← hs]
  rw [List.takeWhile_append_of_pos hall]
  simp

/-- C11, as amended: for every stored text value (`REG_SZ` or `REG_EXPAND_SZ`) of `k >= 1` wide
characters that `GetString` reads: if the last stored character is NUL, the result is the stored
characters before the first NUL, which is exactly the first `k - 1` characters whenever none of
them is NUL; otherwise the result is exactly all `k` stored characters (earlier NULs
included). -/
theorem GetString_trims_terminator (self : RegistryKey) (os : Os) (junk : Nat → Nat)
    (name : List Nat) (k : Key) (ty : Nat) (s : List Nat)
    (hkey : os.keys self.m_hKey = some k)
    (hfound : assocFind (c_str name) k.values = some ⟨ty, wstringBytes s⟩)
    (hty : ty = REG_SZ ∨ ty = REG_EXPAND_SZ)
    (hwf : ∀ c ∈ s, c < 65536) (hk : 1 ≤ s.length) :
    (s.getLast? = some 0 →
      self.GetString os junk name = c_str s ∧
      (0 ∉ s.dropLast → self.GetString os junk name = s.dropLast)) ∧
    (s.getLast? ≠ some 0 → self.GetString os junk name = s) := by
  have hget := GetString_of_found self os junk name k ⟨ty, wstringBytes s⟩ hkey hfound hty
  rw [stringOfData_text s hwf hk] at hget
  constructor
  · intro hlast
    have h1 : self.GetString os junk name = c_str s := by rw [hget, if_pos hlast]
    exact ⟨h1, fun hnul => by rw [h1, c_str_of_single_terminator s hlast hnul]⟩
  · intro hlast
    rw [hget, if_neg hlast]

theorem GetString_trims_terminator_witness :
    (sampleOsTexts.keys (RegistryKey.mk 4).m_hKey = some sampleTexts ∧
      assocFind (c_str [116]) sampleTexts.values = some ⟨REG_SZ, wstringBytes [65, 66, 0]⟩ ∧
      (∀ c ∈ [65, 66, 0], c < 65536) ∧ 1 ≤ ([65, 66, 0] : List Nat).length ∧
      ([65, 66, 0] : List Nat).getLast? = some 0 ∧ 0 ∉ ([65, 66, 0] : List Nat).dropLast ∧
      (RegistryKey.mk 4).GetString sampleOsTexts (fun _ => 9) [116]
        = ([65, 66, 0] : List Nat).dropLast) ∧
    (assocFind (c_str [109]) sampleTexts.values
        = some ⟨REG_EXPAND_SZ, wstringBytes [65, 0, 66]⟩ ∧
      (∀ c ∈ [65, 0, 66], c < 65536) ∧ 1 ≤ ([65, 0, 66] : List Nat).length ∧
      ([65, 0, 66] : List Nat).getLast? ≠ some 0 ∧
      (RegistryKey.mk 4).GetString sampleOsTexts (fun _ => 9) [109] = [65, 0, 66]) :=
  ⟨⟨rfl, by decide, by decide, by decide, by decide, by decide,
      ((GetString_trims_terminator (RegistryKey.mk 4) sampleOsTexts (fun _ => 9) [116]
        sampleTexts REG_SZ [65, 66, 0] rfl (by decide) (Or.inl rfl) (by decide)
        (by decide)).1 (by decide)).2 (by decide)⟩,
    ⟨by decide, by decide, by decide, by decide,
      (GetString_trims_terminator (RegistryKey.mk 4) sampleOsTexts (fun _ => 9) [109]
        sampleTexts REG_EXPAND_SZ [65, 0, 66] rfl (by decide) (Or.inr rfl) (by decide)
        (by decide)).2 (by decide)⟩⟩

/-- C11 as stated fails when a NUL precedes the terminator: the value `e` of `sampleTexts` holds
the four characters "A", NUL, "B", NUL; the last one is NUL, so the claim gives the first three
characters, but `GetString` returns only "A". -/
theorem GetString_stops_at_first_terminator :
    assocFind (c_str [101]) sampleTexts.values = some ⟨REG_SZ, wstringBytes [65, 0, 66, 0]⟩ ∧
    ([65, 0, 66, 0] : List Nat).getLast? = some 0 ∧
    ([65, 0, 66, 0] : List Nat).take (4 - 1) = [65, 0, 66] ∧
    (RegistryKey.mk 4).GetString sampleOsTexts (fun _ => 9) [101] = [65] ∧
    (RegistryKey.mk 4).GetString sampleOsTexts (fun _ => 9) [101]
      ≠ ([65, 0, 66, 0] : List Nat).take (4 - 1) := by
  refine ⟨by decide, by decide, by decide, by decide, by decide⟩

/-! ## GetString and the size of its buffer -/

/-- On a stored text value the size query reports the length of the data, and the second query
writes all of the data. -/
theorem GetString_queries_of_found (self : RegistryKey) (os : Os) (name : List Nat) (k : Key)
    (v : RegValue) (hkey : os.keys self.m_hKey = some k)
    (hfound : assocFind (c_str name) k.values = some v)
    (hty : v.dwType = REG_SZ ∨ v.dwType = REG_EXPAND_SZ) :
    RegistryKey.GetString.reported self os name = v.data.length ∧
    RegistryKey.GetString.written self os name = v.data := by
  simp only [RegistryKey.GetString.reported, RegistryKey.GetString.written, RegQueryValueEx,
    hkey, hfound, hty, le_refl, if_true, true_and, and_self]

theorem stringBufferBytes_even (n : Nat) (h : n % 2 = 0) :
    RegistryKey.stringBufferBytes n = n := by
  unfold RegistryKey.stringBufferBytes RegistryKey.stringBufferLength
  omega

theorem stringBufferBytes_odd (n : Nat) (h : n % 2 = 1) :
    RegistryKey.stringBufferBytes n + 1 = n := by
  unfold RegistryKey.stringBufferBytes RegistryKey.stringBufferLength
  omega

/-- When `GetString` looks into the buffer (`cbData > 1`), the index `cbData/2 - 1` it inspects
and the `cbData/2` characters it copies lie inside the `cbData/2` characters allocated. -/
theorem stringBuffer_reads_inside (n : Nat) (h : n > 1) :
    n / 2 - 1 < RegistryKey.stringBufferLength n ∧ n / 2 ≤ RegistryKey.stringBufferLength n := by
  unfold RegistryKey.stringBufferLength
  omega

/-- For a stored text value of an even number of bytes the second query fills the buffer
exactly; for an odd number of bytes it writes one byte more than the buffer holds. -/
theorem GetString_write_size (self : RegistryKey) (os : Os) (name : List Nat) (k : Key)
    (v : RegValue) (hkey : os.keys self.m_hKey = some k)
    (hfound : assocFind (c_str name) k.values = some v)
    (hty : v.dwType = REG_SZ ∨ v.dwType = REG_EXPAND_SZ) :
    (v.data.length % 2 = 0 →
      (RegistryKey.GetString.written self os name).length
        = RegistryKey.stringBufferBytes (RegistryKey.GetString.reported self os name)) ∧
    (v.data.length % 2 = 1 →
      (RegistryKey.GetString.written self os name).length
        = RegistryKey.stringBufferBytes (RegistryKey.GetString.reported self os name) + 1) := by
  obtain ⟨h1, h2⟩ := GetString_queries_of_found self os name k v hkey hfound hty
  rw [h1, h2]
  exact ⟨fun h => (stringBufferBytes_even _ h).symm, fun h => (stringBufferBytes_odd _ h).symm⟩

/-- C12, the code at the failing input: the value `o` of `sampleTexts` is a `REG_SZ` of three
bytes; the size query reports 3, `GetString` allocates `3/2 = 1` wide character, that is 2
bytes, and the second query writes all 3 bytes, one more than the buffer holds. -/
theorem GetString_buffer_short_for_odd_size :
    assocFind (c_str [111]) sampleTexts.values = some ⟨REG_SZ, [65, 0, 66]⟩ ∧
    RegistryKey.GetString.reported (RegistryKey.mk 4) sampleOsTexts [111] = 3 ∧
    RegistryKey.stringBufferLength 3 = 1 ∧
    RegistryKey.stringBufferBytes 3 = 2 ∧
    (RegistryKey.GetString.written (RegistryKey.mk 4) sampleOsTexts [111]).length = 3 ∧
    ¬ (RegistryKey.stringBufferBytes
        (RegistryKey.GetString.reported (RegistryKey.mk 4) sampleOsTexts [111])
      ≥ RegistryKey.GetString.reported (RegistryKey.mk 4) sampleOsTexts [111]) := by
  refine ⟨by decide, by decide, by decide, by decide, by decide, by decide⟩

end Registry
